import Mathlib

/-!
Verification of the ZiadSupplies storefront core

A shallow embedding of the order-store, catalog-store and notifier code of
the ZiadSupplies repository (`app/database.py`, `app/server.py`,
`app/email_service.py`), together with proofs of the spec's claims about it.

Modelling conventions:
* SQLite tables become Lean lists of typed rows; `AUTOINCREMENT` ids are
  modelled by explicit next-id counters in the database state.
* SQLite `REAL` prices and Python floats are modelled as rationals (`Rat`).
* Python values arriving from a JSON request body are modelled by the
  inductive `Json`; the relevant Python coercions (`int(...)`, `str(...)`,
  truthiness, `.strip()`) are embedded explicitly, and fallible Python code
  is embedded in `Except PyErr`.
-/

namespace ZiadSupplies

instance {ε α : Type} [DecidableEq ε] [DecidableEq α] : DecidableEq (Except ε α) := fun x y =>
  match x, y with
  | .ok a, .ok b =>
    if h : a = b then .isTrue (by rw [h]) else .isFalse (by intro he; cases he; exact h rfl)
  | .error a, .error b =>
    if h : a = b then .isTrue (by rw [h]) else .isFalse (by intro he; cases he; exact h rfl)
  | .ok _, .error _ => .isFalse (by intro h; cases h)
  | .error _, .ok _ => .isFalse (by intro h; cases h)

/-- Python exception classes that the embedded code can raise. -/
inductive PyErr where
  | valueError (msg : String)
  | typeError (msg : String)
  | keyError (key : String)
  | attributeError (msg : String)
  deriving Repr, DecidableEq

/-- A JSON value as decoded by Python's `json.loads`: JSON numbers decode to
either `int` or `float` (modelled as `Rat`), objects to `dict` (modelled as an
association list; `json.loads` never produces duplicate keys). -/
inductive Json where
  | null
  | bool (b : Bool)
  | int (n : Int)
  | float (q : Rat)
  | str (s : String)
  | arr (elements : List Json)
  | obj (fields : List (String × Json))
  deriving Repr

/-- First-match lookup in a JSON object's fields (Python dict indexing; the
dicts produced by `json.loads` have unique keys). -/
def lookupField (fields : List (String × Json)) (key : String) : Option Json :=
  match fields with
  | [] => none
  | (k, v) :: rest => if k = key then some v else lookupField rest key

/-- Truncation of a rational toward zero: Python's `int(float)`. -/
def ratTrunc (q : Rat) : Int :=
  if 0 ≤ q then ⌊q⌋ else -⌊-q⌋

/-- Accepts the tail of a Python integer literal after its first digit:
a sequence of digits where single underscores may stand between digits. -/
def pyDigitsTail : List Char → Bool
  | [] => true
  | '_' :: c :: rest => c.isDigit && pyDigitsTail rest
  | ['_'] => false
  | c :: rest => c.isDigit && pyDigitsTail rest

/-- Numeric value of a digit string, ignoring underscore separators. -/
def digitsVal (cs : List Char) : Nat :=
  cs.foldl (fun n c => if c = '_' then n else 10 * n + (c.toNat - 48)) 0

/-- Python `str.strip()`: drops leading and trailing whitespace
(ASCII whitespace; Python also strips some further Unicode space
characters, which no theorem below exercises). -/
def pyStrip (s : String) : String :=
  ⟨((s.data.dropWhile Char.isWhitespace).reverse.dropWhile Char.isWhitespace).reverse⟩

/-- Python `int(s)` for a string argument: surrounding whitespace is
stripped, then an optional sign followed by a (ASCII) digit sequence with
optional underscore separators.  Returns `none` when the literal is
invalid (Python raises `ValueError`). -/
def pyIntOfString (s : String) : Option Int :=
  let t := pyStrip s
  let core : List Char → Option Int := fun cs =>
    match cs with
    | [] => none
    | c :: rest => if c.isDigit && pyDigitsTail rest then some (digitsVal (c :: rest)) else none
  match t.toList with
  | '+' :: rest => core rest
  | '-' :: rest => (core rest).map (fun n => -n)
  | cs => core cs

/-- Python `int(x)` on a JSON-decoded value: ints pass through, floats
truncate toward zero, booleans coerce to 0/1, strings are parsed as integer
literals (`ValueError` otherwise), and `None`/lists/dicts raise `TypeError`. -/
def pyInt : Json → Except PyErr Int
  | .int n => .ok n
  | .float q => .ok (ratTrunc q)
  | .bool b => .ok (if b then 1 else 0)
  | .str s =>
    match pyIntOfString s with
    | some n => .ok n
    | none => .error (.valueError ("invalid literal for int() with base 10: " ++ s))
  | .null => .error (.typeError "int() argument must be a string or a number, not NoneType")
  | .arr _ => .error (.typeError "int() argument must be a string or a number, not list")
  | .obj _ => .error (.typeError "int() argument must be a string or a number, not dict")

mutual

/-- Python `repr` of a JSON-decoded value, used only through `pyStr` on
composite values.  String escaping and float formatting are approximated
(the theorems below never evaluate these cases: they restrict the fields
whose stringification matters to JSON strings). -/
def pyRepr : Json → String
  | .null => "None"
  | .bool b => if b then "True" else "False"
  | .int n => toString n
  | .float q => toString q
  | .str s => "'" ++ s ++ "'"
  | .arr xs => "[" ++ String.intercalate ", " (pyReprList xs) ++ "]"
  | .obj fs => "\x7b" ++ String.intercalate ", " (pyReprFields fs) ++ "\x7d"

/-- `repr` of each element of a JSON array. -/
def pyReprList : List Json → List String
  | [] => []
  | x :: xs => pyRepr x :: pyReprList xs

/-- `repr` of each `key: value` entry of a JSON object. -/
def pyReprFields : List (String × Json) → List String
  | [] => []
  | (k, v) :: fs => ("'" ++ k ++ "': " ++ pyRepr v) :: pyReprFields fs

end

/-- Python `str(x)` on a JSON-decoded value: strings pass through unchanged,
scalars print in Python style, composite values print as their `repr`. -/
def pyStr : Json → String
  | .str s => s
  | .int n => toString n
  | .bool b => if b then "True" else "False"
  | .null => "None"
  | .float q => toString q
  | .arr xs => pyRepr (.arr xs)
  | .obj fs => pyRepr (.obj fs)

/-! ## The database state (tables of `app/database.py`'s schema) -/

/-- A row of the `categories` table. -/
structure CategoryRow where
  id : Int
  slug : String
  name : String
  description : Option String
  imageUrl : Option String
  deriving Repr, DecidableEq

/-- A row of the `products` table. -/
structure ProductRow where
  id : Int
  categoryId : Int
  subcategory : String
  name : String
  description : Option String
  unit : Option String
  price : Rat
  imageUrl : Option String
  deriving Repr, DecidableEq

/-- A row of the `orders` table. -/
structure OrderRow where
  id : Int
  customerName : String
  email : String
  phone : String
  address : String
  status : String
  verificationCode : String
  createdAt : String
  deriving Repr, DecidableEq

/-- A row of the `order_items` table. -/
structure OrderItemRow where
  id : Int
  orderId : Int
  productId : Int
  quantity : Int
  deriving Repr, DecidableEq

/-- The SQLite database file: the four tables plus the `AUTOINCREMENT`
next-id counter of each table. -/
structure DBState where
  categories : List CategoryRow
  products : List ProductRow
  orders : List OrderRow
  orderItems : List OrderItemRow
  nextCategoryId : Int
  nextProductId : Int
  nextOrderId : Int
  nextOrderItemId : Int
  deriving Repr, DecidableEq

/-- Schema invariants SQLite maintains for the tables: primary keys are
unique, `slug` is `UNIQUE`, and `AUTOINCREMENT` counters are strictly above
every existing row id. -/
def WF (s : DBState) : Prop :=
  (s.categories.map (fun c => c.id)).Nodup ∧
  (s.categories.map (fun c => c.slug)).Nodup ∧
  (s.products.map (fun p => p.id)).Nodup ∧
  (s.orders.map (fun o => o.id)).Nodup ∧
  (∀ c ∈ s.categories, c.id < s.nextCategoryId) ∧
  (∀ p ∈ s.products, p.id < s.nextProductId) ∧
  (∀ o ∈ s.orders, o.id < s.nextOrderId) ∧
  (∀ oi ∈ s.orderItems, oi.orderId < s.nextOrderId)

instance (s : DBState) : Decidable (WF s) := by
  unfold WF; infer_instance

/-! ## `create_order` (app/database.py lines 748-791) -/

/-- Python `item[key]` on a cart entry: a `dict` lookup (`KeyError` when the
key is missing), `TypeError` when the entry is not a dict. -/
def dictGetItem (item : Json) (key : String) : Except PyErr Json :=
  match item with
  | .obj fields =>
    match lookupField fields key with
    | some v => .ok v
    | none => .error (.keyError key)
  | _ => .error (.typeError "item subscripts require a dict")

/-- Python `item.get(key, default)`: `AttributeError` when the entry is not
a dict. -/
def dictGet (item : Json) (key : String) (default : Json) : Except PyErr Json :=
  match item with
  | .obj fields => .ok ((lookupField fields key).getD default)
  | _ => .error (.attributeError "get")

/-- The list comprehension `[int(item["productId"]) for item in items]`:
values in order, the first exception propagating. -/
def extractProductIds : List Json → Except PyErr (List Int)
  | [] => .ok []
  | item :: rest => do
    let pid ← pyInt (← dictGetItem item "productId")
    let pids ← extractProductIds rest
    .ok (pid :: pids)

/-- Embeds `_get_products_by_ids` (lines 739-745) restricted to what
`create_order` observes: the `SELECT` returns the product rows whose id is
among `pids`, and the dict comprehension keys them by `id`, so the dict's
key set is the set of distinct ids of those rows. -/
def resolvedProductIds (s : DBState) (pids : List Int) : List Int :=
  ((s.products.filter (fun p => pids.contains p.id)).map (fun p => p.id)).dedup

/-- The validation loop `for item in items: quantity = int(item.get("quantity", 0));
if quantity <= 0: raise ValueError(...)`. -/
def checkQuantities : List Json → Except PyErr Unit
  | [] => .ok ()
  | item :: rest => do
    let v ← dictGet item "quantity" (.int 0)
    let quantity ← pyInt v
    if quantity ≤ 0 then
      .error (.valueError "Quantities must be greater than zero.")
    else
      checkQuantities rest

/-- The insertion loop of `create_order`: one `order_items` row per cart
line, with `int(item["productId"])` and `int(item["quantity"])` re-coerced
at insertion time; `nextId` models the `AUTOINCREMENT` id sequence. -/
def insertOrderItems (orderId : Int) : Int → List Json → Except PyErr (List OrderItemRow)
  | _, [] => .ok []
  | nextId, item :: rest => do
    let pid ← pyInt (← dictGetItem item "productId")
    let quantity ← pyInt (← dictGetItem item "quantity")
    let rows ← insertOrderItems orderId (nextId + 1) rest
    .ok ({ id := nextId, orderId := orderId, productId := pid, quantity := quantity } :: rows)

/-- Embeds `create_order` (lines 748-791).  The `db_cursor` context manager
commits only on normal exit, so an exception leaves the database unchanged:
accordingly the embedding returns the committed state only in the success
case. -/
def create_order (s : DBState) (customerName email phone address : String)
    (items : List Json) (timestamp : String) : Except PyErr (DBState × Int) := do
  if items.isEmpty then
    .error (.valueError "Cart is empty.")
  else
    let productIds ← extractProductIds items
    if (resolvedProductIds s productIds).length ≠ productIds.length then
      .error (.valueError "One or more products do not exist.")
    else do
      checkQuantities items
      let orderId := s.nextOrderId
      let newOrder : OrderRow :=
        { id := orderId, customerName := customerName, email := email, phone := phone,
          address := address, status := "received", verificationCode := "",
          createdAt := timestamp }
      let newItems ← insertOrderItems orderId s.nextOrderItemId items
      .ok ({ s with
              orders := s.orders ++ [newOrder],
              orderItems := s.orderItems ++ newItems,
              nextOrderId := orderId + 1,
              nextOrderItemId := s.nextOrderItemId + newItems.length }, orderId)

/-- The observable effect of `create_order` through `db_cursor`
(lines 24-32): the connection commits on normal exit and is closed without
commit when an exception escapes, so a raising call leaves the persisted
state unchanged. -/
def createOrderObservable (s : DBState) (customerName email phone address : String)
    (items : List Json) (timestamp : String) : DBState × Option Int :=
  match create_order s customerName email phone address items timestamp with
  | .ok (s', oid) => (s', some oid)
  | .error _ => (s, none)

/-! ## `get_order_summary` (lines 794-840) -/

/-- One element of the summary's `items` list. -/
structure SummaryLine where
  name : String
  price : Rat
  quantity : Int
  lineTotal : Rat
  deriving Repr, DecidableEq

/-- The order summary dictionary returned by `get_order_summary`. -/
structure OrderSummary where
  id : Int
  customerName : String
  email : String
  phone : String
  address : String
  status : String
  createdAt : String
  items : List SummaryLine
  total : Rat
  deriving Repr, DecidableEq

/-- The `JOIN` of `order_items` with `products` for one order: each item row
of the order is paired with every product row carrying its `product_id`
(under the schema's primary-key invariant that is one row), projecting name,
price, quantity and the computed line total. -/
def summaryLines (s : DBState) (orderId : Int) : List SummaryLine :=
  ((s.orderItems.filter (fun oi => oi.orderId = orderId)).map (fun oi =>
    (s.products.filter (fun p => p.id = oi.productId)).map (fun p =>
      { name := p.name, price := p.price, quantity := oi.quantity,
        lineTotal := p.price * (oi.quantity : Rat) : SummaryLine }))).flatten

/-- Embeds `get_order_summary` (lines 794-840): `None` when no order row
carries the id, otherwise the joined summary with the total computed at
read time as `sum(price * quantity)`. -/
def get_order_summary (s : DBState) (orderId : Int) : Option OrderSummary :=
  match s.orders.find? (fun o => o.id = orderId) with
  | none => none
  | some o =>
    let lines := summaryLines s orderId
    some { id := o.id, customerName := o.customerName, email := o.email, phone := o.phone,
           address := o.address, status := o.status, createdAt := o.createdAt,
           items := lines,
           total := (lines.map (fun r => r.price * (r.quantity : Rat))).sum }

/-- The current product price `create_order` captures by reference: the
price of the unique product row with the given id (0 when absent). -/
def priceOf (s : DBState) (pid : Int) : Rat :=
  ((s.products.find? (fun p => p.id = pid)).map (fun p => p.price)).getD 0

/-- A cart line `{productId: p, quantity: q}` with integer-typed values. -/
def mkCartItem (pq : Int × Int) : Json :=
  .obj [("productId", .int pq.1), ("quantity", .int pq.2)]

/-! Small demonstration states used by concrete counterexamples and
witnesses. -/

/-- A seeded category for the demonstration states. -/
def demoCategory : CategoryRow :=
  { id := 1, slug := "detergent-cleaning", name := "Detergent & Cleaning Liquids",
    description := none, imageUrl := none }

/-- A product (id 1, price 4) for the demonstration states. -/
def demoProduct : ProductRow :=
  { id := 1, categoryId := 1, subcategory := "Chlorine", name := "Chlorine 4L",
    description := none, unit := some "Jerrycan 4L", price := 4, imageUrl := none }

/-- A one-category, one-product database. -/
def sDemo : DBState :=
  { categories := [demoCategory], products := [demoProduct], orders := [], orderItems := [],
    nextCategoryId := 2, nextProductId := 2, nextOrderId := 1, nextOrderItemId := 1 }

example : WF sDemo := by decide

example :
    create_order sDemo "n" "e@x" "123456" "addr" [mkCartItem (1, 2)] "t" =
      .ok ({ sDemo with
              orders := [{ id := 1, customerName := "n", email := "e@x", phone := "123456",
                           address := "addr", status := "received", verificationCode := "",
                           createdAt := "t" }],
              orderItems := [{ id := 1, orderId := 1, productId := 1, quantity := 2 }],
              nextOrderId := 2, nextOrderItemId := 2 }, 1) := by
  decide

example :
    (create_order sDemo "n" "e@x" "123456" "addr" [mkCartItem (1, 2)] "t").map
        (fun r => (get_order_summary r.1 r.2).map (fun su => su.total)) =
      .ok (some 8) := by
  simp +decide [create_order, sDemo, mkCartItem, extractProductIds, resolvedProductIds,
    checkQuantities, insertOrderItems, dictGetItem, dictGet, lookupField, pyInt, demoProduct,
    get_order_summary, summaryLines, List.mapM, List.mapM.loop, Except.map,
    Bind.bind, Except.bind, Pure.pure, Except.pure]
  norm_num

/-! ## List helpers about unique keys -/

theorem filter_key_eq_single {α β : Type} [DecidableEq β] (f : α → β) {l : List α}
    (h : (l.map f).Nodup) {a : α} (ha : a ∈ l) :
    l.filter (fun x => f x = f a) = [a] := by
  induction l with
  | nil => cases ha
  | cons b t ih =>
    rw [List.map_cons, List.nodup_cons] at h
    rcases List.mem_cons.mp ha with rfl | hat
    · have ht : t.filter (fun x => f x = f a) = [] := by
        apply List.filter_eq_nil_iff.mpr
        intro x hx
        simp only [decide_eq_true_eq]
        intro hfx
        exact h.1 (hfx ▸ List.mem_map_of_mem f hx)
      simp [List.filter_cons, ht]
    · have hne : f b ≠ f a := fun he => h.1 (he ▸ List.mem_map_of_mem f hat)
      rw [List.filter_cons]
      simp only [decide_eq_true_eq, if_neg hne]
      exact ih h.2 hat

theorem find?_key_eq_single {α β : Type} [DecidableEq β] (f : α → β) {l : List α}
    (h : (l.map f).Nodup) {a : α} (ha : a ∈ l) :
    l.find? (fun x => f x = f a) = some a := by
  induction l with
  | nil => cases ha
  | cons b t ih =>
    rw [List.map_cons, List.nodup_cons] at h
    rcases List.mem_cons.mp ha with rfl | hat
    · simp [List.find?_cons]
    · have hne : f b ≠ f a := fun he => h.1 (he ▸ List.mem_map_of_mem f hat)
      have hb : (decide (f b = f a)) = false := by simp [hne]
      rw [List.find?_cons, hb]
      exact ih h.2 hat

/-! ## Behaviour of `create_order` on well-typed carts -/

/-- The resolved-id dict of `_get_products_by_ids` holds exactly the ids in
`pids` when the requested ids are pairwise distinct and each resolves. -/
theorem resolvedProductIds_length {s : DBState} {pids : List Int}
    (hwfp : (s.products.map (fun p => p.id)).Nodup)
    (hnd : pids.Nodup)
    (hres : ∀ pid ∈ pids, ∃ p ∈ s.products, p.id = pid) :
    (resolvedProductIds s pids).length = pids.length := by
  unfold resolvedProductIds
  set base := (s.products.filter (fun p => pids.contains p.id)).map (fun p => p.id) with hbase
  have hbnd : base.Nodup := hwfp.sublist ((List.filter_sublist _).map _)
  rw [List.dedup_eq_self.mpr hbnd]
  have hmem : ∀ a : Int, a ∈ base ↔ (a ∈ pids ∧ ∃ p ∈ s.products, p.id = a) := by
    intro a
    constructor
    · intro ha
      rcases List.mem_map.mp ha with ⟨p, hp, rfl⟩
      rcases List.mem_filter.mp hp with ⟨hps, hc⟩
      exact ⟨List.elem_iff.mp hc, p, hps, rfl⟩
    · rintro ⟨hapids, p, hps, rfl⟩
      exact List.mem_map.mpr ⟨p, List.mem_filter.mpr ⟨hps, List.elem_iff.mpr hapids⟩, rfl⟩
  have h1 : base ⊆ pids := fun a ha => ((hmem a).mp ha).1
  have h2 : pids ⊆ base := fun a ha => (hmem a).mpr ⟨ha, hres a ha⟩
  exact le_antisymm ((hbnd.subperm h1).length_le) ((hnd.subperm h2).length_le)

/-- The `order_items` rows `create_order` inserts for an all-integer cart. -/
def mkItemRows (orderId : Int) : Int → List (Int × Int) → List OrderItemRow
  | _, [] => []
  | nextId, pq :: rest =>
    { id := nextId, orderId := orderId, productId := pq.1, quantity := pq.2 } ::
      mkItemRows orderId (nextId + 1) rest

theorem mkItemRows_length (orderId : Int) (lines : List (Int × Int)) :
    ∀ n, (mkItemRows orderId n lines).length = lines.length := by
  induction lines with
  | nil => intro n; rfl
  | cons pq rest ih => intro n; simp [mkItemRows, ih]

theorem mkItemRows_orderId (orderId : Int) (lines : List (Int × Int)) :
    ∀ n, ∀ r ∈ mkItemRows orderId n lines, r.orderId = orderId := by
  induction lines with
  | nil => intro n r hr; cases hr
  | cons pq rest ih =>
    intro n r hr
    rcases List.mem_cons.mp hr with rfl | hr'
    · rfl
    · exact ih (n + 1) r hr'

theorem extractProductIds_mkCartItem (lines : List (Int × Int)) :
    extractProductIds (lines.map mkCartItem) = .ok (lines.map Prod.fst) := by
  induction lines with
  | nil => rfl
  | cons pq rest ih =>
    simp [extractProductIds, mkCartItem, dictGetItem, lookupField, pyInt, ih,
      Bind.bind, Except.bind]

theorem checkQuantities_mkCartItem_ok {lines : List (Int × Int)}
    (h : ∀ pq ∈ lines, 0 < pq.2) :
    checkQuantities (lines.map mkCartItem) = .ok () := by
  induction lines with
  | nil => rfl
  | cons pq rest ih =>
    have hq := h pq (List.mem_cons_self ..)
    have hcond : ¬ (pq.2 ≤ 0) := by omega
    simp +decide only [List.map_cons, checkQuantities, mkCartItem, dictGet, lookupField, pyInt,
      Bind.bind, Except.bind, Option.getD, reduceIte]
    rw [if_neg hcond]
    simp [ih (fun x hx => h x (List.mem_cons_of_mem _ hx)), Bind.bind, Except.bind]

theorem insertOrderItems_mkCartItem (oid : Int) (lines : List (Int × Int)) :
    ∀ n, insertOrderItems oid n (lines.map mkCartItem) = .ok (mkItemRows oid n lines) := by
  induction lines with
  | nil => intro n; rfl
  | cons pq rest ih =>
    intro n
    simp [insertOrderItems, mkItemRows, mkCartItem, dictGetItem, lookupField, pyInt, ih,
      Bind.bind, Except.bind]

/-- `create_order` on a valid all-integer cart with pairwise-distinct
product ids: the committed state, written out. -/
theorem create_order_ok_valid {s : DBState} {lines : List (Int × Int)}
    (cn em ph ad ts : String)
    (hwfp : (s.products.map (fun p => p.id)).Nodup)
    (hne : lines ≠ [])
    (hnd : (lines.map Prod.fst).Nodup)
    (hres : ∀ pq ∈ lines, ∃ p ∈ s.products, p.id = pq.1)
    (hqty : ∀ pq ∈ lines, 0 < pq.2) :
    create_order s cn em ph ad (lines.map mkCartItem) ts =
      .ok ({ s with
              orders := s.orders ++
                [⟨s.nextOrderId, cn, em, ph, ad, "received", "", ts⟩],
              orderItems := s.orderItems ++ mkItemRows s.nextOrderId s.nextOrderItemId lines,
              nextOrderId := s.nextOrderId + 1,
              nextOrderItemId := s.nextOrderItemId + (lines.length : Int) },
            s.nextOrderId) := by
  have hne' : (lines.map mkCartItem).isEmpty = false := by
    cases lines
    · exact absurd rfl hne
    · rfl
  have hres' : ∀ pid ∈ lines.map Prod.fst, ∃ p ∈ s.products, p.id = pid := by
    intro pid hpid
    rcases List.mem_map.mp hpid with ⟨pq, hpq, rfl⟩
    exact hres pq hpq
  have hcount := resolvedProductIds_length hwfp hnd hres'
  have hcond : ¬ ((resolvedProductIds s (lines.map Prod.fst)).length ≠
      (lines.map Prod.fst).length) := by
    simp [hcount]
  unfold create_order
  rw [hne']
  simp only [Bind.bind, Except.bind, extractProductIds_mkCartItem]
  rw [if_neg hcond]
  simp only [checkQuantities_mkCartItem_ok hqty, insertOrderItems_mkCartItem,
    mkItemRows_length]
  rfl

/-- The joined summary line `get_order_summary` produces for a cart line. -/
def joinedLine (s : DBState) (pq : Int × Int) : SummaryLine :=
  { name := ((s.products.find? (fun p => p.id = pq.1)).map (fun p => p.name)).getD ""
    price := priceOf s pq.1
    quantity := pq.2
    lineTotal := priceOf s pq.1 * (pq.2 : Rat) }

theorem summary_rows_eq {s : DBState}
    (hwfp : (s.products.map (fun p => p.id)).Nodup) (oid : Int)
    {lines : List (Int × Int)}
    (hres : ∀ pq ∈ lines, ∃ p ∈ s.products, p.id = pq.1) :
    ∀ n, ((mkItemRows oid n lines).map (fun oi =>
        (s.products.filter (fun p => p.id = oi.productId)).map (fun p =>
          ({ name := p.name, price := p.price, quantity := oi.quantity,
             lineTotal := p.price * (oi.quantity : Rat) } : SummaryLine)))).flatten
      = lines.map (joinedLine s) := by
  induction lines with
  | nil => intro n; rfl
  | cons pq rest ih =>
    intro n
    obtain ⟨p, hp, hpid⟩ := hres pq (List.mem_cons_self ..)
    have hfilter : s.products.filter (fun q => q.id = pq.1) = [p] := by
      rw [← hpid]
      exact filter_key_eq_single (fun q => q.id) hwfp hp
    have hfind : s.products.find? (fun q => q.id = pq.1) = some p := by
      rw [← hpid]
      exact find?_key_eq_single (fun q => q.id) hwfp hp
    simp [mkItemRows, hfilter, joinedLine, priceOf, hfind,
      ih (fun x hx => hres x (List.mem_cons_of_mem _ hx))]

/-- **C1** (amended).  The claim as frozen fails on the code when a valid
cart repeats a productId (see `claim_C1_counterexample`): `create_order`
compares the number of resolved products against the number of cart lines,
so the hypothesis `hnd` (pairwise-distinct productIds) is added.  For every
such valid cart — non-empty, every productId resolving to an existing
product, every quantity a positive integer — `create_order` returns the
fresh order id without raising, and `get_order_summary` on that id reports
a total equal to the sum over the cart's lines of the referenced product's
price times the requested quantity, with each line's `lineTotal` equal to
`price * quantity`. -/
theorem claim_C1 (s : DBState) (lines : List (Int × Int)) (cn em ph ad ts : String)
    (hwf : WF s) (hne : lines ≠ [])
    (hnd : (lines.map Prod.fst).Nodup)
    (hres : ∀ pq ∈ lines, ∃ p ∈ s.products, p.id = pq.1)
    (hqty : ∀ pq ∈ lines, 0 < pq.2) :
    ∃ s', create_order s cn em ph ad (lines.map mkCartItem) ts = .ok (s', s.nextOrderId) ∧
      (∀ o ∈ s.orders, o.id ≠ s.nextOrderId) ∧
      ∃ su, get_order_summary s' s.nextOrderId = some su ∧
        su.total = (lines.map (fun pq => priceOf s pq.1 * (pq.2 : Rat))).sum ∧
        su.items.map (fun r => (r.price, r.quantity)) =
          lines.map (fun pq => (priceOf s pq.1, pq.2)) ∧
        (∀ r ∈ su.items, r.lineTotal = r.price * (r.quantity : Rat)) := by
  obtain ⟨-, -, hwfp, -, -, -, hord, hitem⟩ := hwf
  refine ⟨_, create_order_ok_valid cn em ph ad ts hwfp hne hnd hres hqty,
    fun o ho he => by have := hord o ho; omega, ?_⟩
  have hfindold : s.orders.find? (fun o => o.id = s.nextOrderId) = none := by
    apply List.find?_eq_none.mpr
    intro o ho
    simp only [decide_eq_true_eq]
    have := hord o ho; omega
  have hfilterold : s.orderItems.filter (fun oi => oi.orderId = s.nextOrderId) = [] := by
    apply List.filter_eq_nil_iff.mpr
    intro oi hoi
    simp only [decide_eq_true_eq]
    have := hitem oi hoi; omega
  have hfilternew : (mkItemRows s.nextOrderId s.nextOrderItemId lines).filter
      (fun oi => oi.orderId = s.nextOrderId) = mkItemRows s.nextOrderId s.nextOrderItemId lines := by
    apply List.filter_eq_self.mpr
    intro oi hoi
    simp only [decide_eq_true_eq]
    exact mkItemRows_orderId _ _ _ oi hoi
  refine ⟨{ id := s.nextOrderId, customerName := cn, email := em, phone := ph, address := ad,
            status := "received", createdAt := ts,
            items := lines.map (joinedLine s),
            total := ((lines.map (joinedLine s)).map
              (fun r => r.price * (r.quantity : Rat))).sum }, ?_, ?_, ?_, ?_⟩
  · simp only [get_order_summary, summaryLines, List.find?_append, hfindold, Option.none_or,
      List.filter_append, hfilterold, List.nil_append, hfilternew]
    rw [List.find?_cons_of_pos _ (by simp)]
    dsimp only
    rw [summary_rows_eq hwfp s.nextOrderId hres s.nextOrderItemId]
  · rw [List.map_map]
    dsimp only
    congr 1
  · rw [List.map_map]
    apply List.map_congr_left
    intro pq _
    simp [joinedLine, Function.comp]
  · intro r hr
    rcases List.mem_map.mp hr with ⟨pq, _, rfl⟩
    rfl

/-- The two-product catalog of the spec's concrete scenario: product 7
costs 4.00 and product 9 costs 12.50. -/
def sSpec : DBState :=
  { categories := [demoCategory],
    products :=
      [{ id := 7, categoryId := 1, subcategory := "Chlorine", name := "Chlorine 4L",
         description := none, unit := none, price := 4, imageUrl := none },
       { id := 9, categoryId := 1, subcategory := "Chlorine", name := "Chlorine 10L",
         description := none, unit := none, price := 25 / 2, imageUrl := none }],
    orders := [], orderItems := [],
    nextCategoryId := 2, nextProductId := 10, nextOrderId := 1, nextOrderItemId := 1 }

/-- Witness for C1: the spec scenario cart `[(7, 2), (9, 1)]` on `sSpec`. -/
theorem claim_C1_witness :
    ∃ s', create_order sSpec "Ziad" "z@example.com" "123456" "Beirut"
        ([((7 : Int), (2 : Int)), (9, 1)].map mkCartItem) "now" = .ok (s', sSpec.nextOrderId) ∧
      (∀ o ∈ sSpec.orders, o.id ≠ sSpec.nextOrderId) ∧
      ∃ su, get_order_summary s' sSpec.nextOrderId = some su ∧
        su.total = ([((7 : Int), (2 : Int)), (9, 1)].map
          (fun pq => priceOf sSpec pq.1 * (pq.2 : Rat))).sum ∧
        su.items.map (fun r => (r.price, r.quantity)) =
          [((7 : Int), (2 : Int)), (9, 1)].map (fun pq => (priceOf sSpec pq.1, pq.2)) ∧
        (∀ r ∈ su.items, r.lineTotal = r.price * (r.quantity : Rat)) :=
  claim_C1 sSpec [(7, 2), (9, 1)] "Ziad" "z@example.com" "123456" "Beirut" "now"
    (by decide) (by decide) (by decide) (by decide) (by decide)

/-! ## C2: the unknown-product check -/

theorem dictGet_error_shape {item : Json} {k : String} {d : Json} {e : PyErr}
    (h : dictGet item k d = .error e) : ∃ m, e = .attributeError m := by
  cases item <;> simp [dictGet] at h <;> exact ⟨_, h.symm⟩

theorem dictGetItem_error_shape {item : Json} {k : String} {e : PyErr}
    (h : dictGetItem item k = .error e) : e = .keyError k ∨ ∃ m, e = .typeError m := by
  cases item <;> simp [dictGetItem] at h
  case obj fields =>
    cases hl : lookupField fields k <;> rw [hl] at h
    · exact Or.inl (by cases h; rfl)
    · cases h
  all_goals exact Or.inr ⟨_, h.symm⟩

theorem pyInt_error_shape {v : Json} {e : PyErr} (h : pyInt v = .error e) :
    (∃ t, e = .valueError ("invalid literal for int() with base 10: " ++ t)) ∨
    ∃ m, e = .typeError m := by
  cases v <;> simp [pyInt] at h
  case str t =>
    cases hp : pyIntOfString t <;> rw [hp] at h
    · exact Or.inl ⟨t, by cases h; rfl⟩
    · cases h
  all_goals exact Or.inr ⟨_, h.symm⟩

theorem except_bind_ok {α β ε : Type} (a : α) (f : α → Except ε β) :
    Except.bind (.ok a) f = f a := rfl

theorem except_bind_error {α β ε : Type} (e : ε) (f : α → Except ε β) :
    Except.bind (.error e) f = .error e := rfl

/-- The errors the quantity-validation loop can produce. -/
theorem checkQuantities_error_shape {items : List Json} {e : PyErr}
    (h : checkQuantities items = .error e) :
    e = .valueError "Quantities must be greater than zero." ∨
    (∃ t, e = .valueError ("invalid literal for int() with base 10: " ++ t)) ∨
    (∃ m, e = .typeError m) ∨ (∃ m, e = .attributeError m) := by
  induction items with
  | nil => cases h
  | cons item rest ih =>
    rw [checkQuantities] at h
    simp only [Bind.bind] at h
    cases hd : dictGet item "quantity" (.int 0) with
    | error e' =>
      rw [hd, except_bind_error] at h
      cases h
      exact Or.inr (Or.inr (Or.inr (dictGet_error_shape hd)))
    | ok v =>
      rw [hd] at h
      simp only [except_bind_ok] at h
      cases hp : pyInt v with
      | error e' =>
        rw [hp, except_bind_error] at h
        cases h
        rcases pyInt_error_shape hp with h' | h'
        · exact Or.inr (Or.inl h')
        · exact Or.inr (Or.inr (Or.inl h'))
      | ok q =>
        rw [hp] at h
        simp only [except_bind_ok] at h
        by_cases hq : q ≤ 0
        · rw [if_pos hq] at h
          cases h
          exact Or.inl rfl
        · rw [if_neg hq] at h
          exact ih h

/-- The errors the insertion loop can produce. -/
theorem insertOrderItems_error_shape {oid : Int} {items : List Json} {e : PyErr} :
    ∀ {n : Int}, insertOrderItems oid n items = .error e →
    (∃ k, e = .keyError k) ∨
    (∃ t, e = .valueError ("invalid literal for int() with base 10: " ++ t)) ∨
    (∃ m, e = .typeError m) := by
  induction items with
  | nil => intro n h; cases h
  | cons item rest ih =>
    intro n h
    rw [insertOrderItems] at h
    simp only [Bind.bind] at h
    cases hd : dictGetItem item "productId" with
    | error e' =>
      rw [hd, except_bind_error] at h
      cases h
      rcases dictGetItem_error_shape hd with h' | h'
      · exact Or.inl ⟨_, h'⟩
      · exact Or.inr (Or.inr h')
    | ok v =>
      rw [hd] at h
      simp only [except_bind_ok] at h
      cases hp : pyInt v with
      | error e' =>
        rw [hp, except_bind_error] at h
        cases h
        rcases pyInt_error_shape hp with h' | h'
        · exact Or.inr (Or.inl h')
        · exact Or.inr (Or.inr h')
      | ok pid =>
        rw [hp] at h
        simp only [except_bind_ok] at h
        cases hd2 : dictGetItem item "quantity" with
        | error e' =>
          rw [hd2, except_bind_error] at h
          cases h
          rcases dictGetItem_error_shape hd2 with h' | h'
          · exact Or.inl ⟨_, h'⟩
          · exact Or.inr (Or.inr h')
        | ok v2 =>
          rw [hd2] at h
          simp only [except_bind_ok] at h
          cases hp2 : pyInt v2 with
          | error e' =>
            rw [hp2, except_bind_error] at h
            cases h
            rcases pyInt_error_shape hp2 with h' | h'
            · exact Or.inr (Or.inl h')
            · exact Or.inr (Or.inr h')
          | ok q =>
            rw [hp2] at h
            simp only [except_bind_ok] at h
            cases hrest : insertOrderItems oid (n + 1) rest with
            | error e' =>
              rw [hrest, except_bind_error] at h
              cases h
              exact ih hrest
            | ok rows =>
              rw [hrest] at h
              simp only [except_bind_ok] at h
              cases h

theorem invalid_literal_ne_unknown (t : String) :
    ("invalid literal for int() with base 10: " ++ t) ≠
      "One or more products do not exist." := by
  intro h
  have hlen := congrArg String.length h
  rw [String.length_append] at hlen
  have h1 : ("invalid literal for int() with base 10: " : String).length = 40 := rfl
  have h2 : ("One or more products do not exist." : String).length = 34 := rfl
  omega

/-- **C2** counterexample: in `sDemo` every requested productId (1, on both
lines) resolves to an existing product, yet `create_order` raises the
unknown-product error, because the code compares the resolved-product count
against the line count rather than the distinct-id count. -/
theorem claim_C2_counterexample :
    (∀ pq ∈ [((1 : Int), (1 : Int)), (1, 1)], ∃ p ∈ sDemo.products, p.id = pq.1) ∧
    create_order sDemo "n" "e@x" "123456" "addr"
        ([((1 : Int), (1 : Int)), (1, 1)].map mkCartItem) "t" =
      .error (.valueError "One or more products do not exist.") := by
  decide

/-- **C2** (amended: the comparison is against the productIds counted with
multiplicity, i.e. the number of cart lines, not the distinct count):
given a non-empty cart whose productIds all coerce (`extractProductIds`
succeeds), `create_order` fails with the UnknownProduct error iff the
count of resolved products differs from the number of requested ids. -/
theorem claim_C2 (s : DBState) (cn em ph ad ts : String) (items : List Json)
    (pids : List Int) (hne : items ≠ []) (hext : extractProductIds items = .ok pids) :
    create_order s cn em ph ad items ts =
        .error (.valueError "One or more products do not exist.") ↔
      (resolvedProductIds s pids).length ≠ pids.length := by
  have hne' : items.isEmpty = false := by
    cases items with
    | nil => exact absurd rfl hne
    | cons a l => rfl
  rw [create_order, hne']
  simp only [Bind.bind, Bool.false_eq_true, if_false, hext, except_bind_ok]
  by_cases hc : (resolvedProductIds s pids).length ≠ pids.length
  · rw [if_pos hc]
    simp [hc]
  · rw [if_neg hc]
    apply iff_of_false _ hc
    intro h
    cases hq : checkQuantities items with
    | error e =>
      rw [hq, except_bind_error] at h
      cases h
      rcases checkQuantities_error_shape hq with h' | ⟨t, h'⟩ | ⟨m, h'⟩ | ⟨m, h'⟩
      · simp at h'
      · exact invalid_literal_ne_unknown t (by injection h' with h''; exact h''.symm)
      · cases h'
      · cases h'
    | ok u =>
      cases u
      rw [hq] at h
      simp only [except_bind_ok] at h
      cases hins : insertOrderItems s.nextOrderId s.nextOrderItemId items with
      | error e =>
        rw [hins, except_bind_error] at h
        cases h
        rcases insertOrderItems_error_shape hins with ⟨k, h'⟩ | ⟨t, h'⟩ | ⟨m, h'⟩
        · cases h'
        · exact invalid_literal_ne_unknown t (by injection h' with h''; exact h''.symm)
        · cases h'
      | ok rows =>
        rw [hins] at h
        simp only [except_bind_ok] at h
        cases h

/-- Witness for C2: on `sDemo` with the resolvable one-line cart
`[(1, 1)]` the resolved count matches the line count, and indeed
`create_order` does not raise the unknown-product error. -/
theorem claim_C2_witness :
    ¬ (create_order sDemo "n" "e@x" "123456" "addr" [mkCartItem (1, 1)] "t" =
        .error (.valueError "One or more products do not exist.")) :=
  (not_iff_not.mpr
    (claim_C2 sDemo "n" "e@x" "123456" "addr" "t" [mkCartItem (1, 1)] [1]
      (List.cons_ne_nil _ _) (by decide))).mpr (by decide)

/-! ## C3: invalid carts are rejected before any write -/

/-- The quantity loop stops with the non-positive-quantity error whenever
some all-integer cart line has quantity ≤ 0. -/
theorem checkQuantities_mkCartItem_error {lines : List (Int × Int)}
    (h : ∃ pq ∈ lines, pq.2 ≤ 0) :
    checkQuantities (lines.map mkCartItem) =
      .error (.valueError "Quantities must be greater than zero.") := by
  induction lines with
  | nil => rcases h with ⟨pq, hpq, -⟩; cases hpq
  | cons pq rest ih =>
    simp +decide only [List.map_cons, checkQuantities, mkCartItem, dictGet, lookupField, pyInt,
      Bind.bind, Except.bind, Option.getD, reduceIte]
    by_cases hq : pq.2 ≤ 0
    · rw [if_pos hq]
    · rw [if_neg hq]
      rcases h with ⟨pq', hpq', hq'⟩
      rcases List.mem_cons.mp hpq' with rfl | h'
      · exact absurd hq' hq
      · simpa [Bind.bind, Except.bind] using ih ⟨pq', h', hq'⟩

/-- When some requested productId resolves to no product, the resolved
count falls strictly short of the line count. -/
theorem resolvedProductIds_length_lt {s : DBState} {pids : List Int}
    {pid₀ : Int} (h₀ : pid₀ ∈ pids) (hno : ∀ p ∈ s.products, p.id ≠ pid₀) :
    (resolvedProductIds s pids).length < pids.length := by
  set res := resolvedProductIds s pids with hres
  have hnd : res.Nodup := List.nodup_dedup _
  have hsub : ∀ a ∈ res, a ∈ pids ∧ a ≠ pid₀ := by
    intro a ha
    rw [hres, resolvedProductIds, List.mem_dedup] at ha
    rcases List.mem_map.mp ha with ⟨p, hp, rfl⟩
    rcases List.mem_filter.mp hp with ⟨hps, hc⟩
    exact ⟨List.elem_iff.mp hc, hno p hps⟩
  have hsub' : res ⊆ pids.dedup.erase pid₀ := by
    intro a ha
    rcases hsub a ha with ⟨h1, h2⟩
    exact (List.mem_erase_of_ne h2).mpr (List.mem_dedup.mpr h1)
  have h1 : res.length ≤ (pids.dedup.erase pid₀).length :=
    (hnd.subperm hsub').length_le
  have h2 : (pids.dedup.erase pid₀).length = pids.dedup.length - 1 :=
    List.length_erase_of_mem (List.mem_dedup.mpr h₀)
  have h3 : pids.dedup.length ≤ pids.length := (List.dedup_sublist pids).length_le
  have h4 : 0 < pids.dedup.length :=
    List.length_pos.mpr (List.ne_nil_of_mem (List.mem_dedup.mpr h₀))
  omega

/-- **C3**: for every invalid cart — empty, or some productId resolving to
no existing product, or some quantity ≤ 0 — `create_order` raises a
`ValueError` (an input error), and the observable database state through
`db_cursor` (which only commits on normal exit) is unchanged: no order row
and no order_items row is persisted. -/
theorem claim_C3 (s : DBState) (lines : List (Int × Int)) (cn em ph ad ts : String)
    (hbad : lines = [] ∨ (∃ pq ∈ lines, ∀ p ∈ s.products, p.id ≠ pq.1) ∨
      (∃ pq ∈ lines, pq.2 ≤ 0)) :
    (∃ msg, create_order s cn em ph ad (lines.map mkCartItem) ts =
        .error (.valueError msg)) ∧
    createOrderObservable s cn em ph ad (lines.map mkCartItem) ts = (s, none) := by
  have key : ∃ msg, create_order s cn em ph ad (lines.map mkCartItem) ts =
      .error (.valueError msg) := by
    rcases hbad with rfl | ⟨pq₀, hpq₀, hno⟩ | hq
    · exact ⟨"Cart is empty.", rfl⟩
    · have hlt := resolvedProductIds_length_lt
        (List.mem_map_of_mem Prod.fst hpq₀) hno
      have hne' : (lines.map mkCartItem).isEmpty = false := by
        cases lines with
        | nil => cases hpq₀
        | cons a l => rfl
      refine ⟨"One or more products do not exist.", ?_⟩
      rw [create_order, hne']
      simp only [Bind.bind, Bool.false_eq_true, if_false, extractProductIds_mkCartItem,
        except_bind_ok]
      rw [if_pos (by omega)]
    · rcases hq with ⟨pq₀, hpq₀, hq₀⟩
      have hne' : (lines.map mkCartItem).isEmpty = false := by
        cases lines with
        | nil => cases hpq₀
        | cons a l => rfl
      by_cases hc : (resolvedProductIds s (lines.map Prod.fst)).length =
          (lines.map Prod.fst).length
      · refine ⟨"Quantities must be greater than zero.", ?_⟩
        rw [create_order, hne']
        simp only [Bind.bind, Bool.false_eq_true, if_false, extractProductIds_mkCartItem,
          except_bind_ok]
        rw [if_neg (by omega)]
        rw [checkQuantities_mkCartItem_error ⟨pq₀, hpq₀, hq₀⟩, except_bind_error]
      · refine ⟨"One or more products do not exist.", ?_⟩
        rw [create_order, hne']
        simp only [Bind.bind, Bool.false_eq_true, if_false, extractProductIds_mkCartItem,
          except_bind_ok]
        rw [if_pos hc]
  refine ⟨key, ?_⟩
  rcases key with ⟨msg, hmsg⟩
  rw [createOrderObservable, hmsg]

/-- Witness for C3: the cart `[(1, 0)]` (non-positive quantity) on `sDemo`
is rejected with a `ValueError` and the state is unchanged. -/
theorem claim_C3_witness :
    (∃ msg, create_order sDemo "n" "e@x" "123456" "addr" ([((1 : Int), (0 : Int))].map mkCartItem) "t" =
        .error (.valueError msg)) ∧
    createOrderObservable sDemo "n" "e@x" "123456" "addr"
        ([((1 : Int), (0 : Int))].map mkCartItem) "t" = (sDemo, none) :=
  claim_C3 sDemo [(1, 0)] "n" "e@x" "123456" "addr" "t"
    (Or.inr (Or.inr (by decide)))

/-! ## C8: summaries of unknown orders -/

/-- **C8**: for every order id carried by no persisted order,
`get_order_summary` returns the not-found sentinel `None` rather than
raising; the operation is a pure read (its `db_cursor` scope performs no
writes, so the committed state is trivially unchanged). -/
theorem claim_C8 (s : DBState) (oid : Int) (h : ∀ o ∈ s.orders, o.id ≠ oid) :
    get_order_summary s oid = none := by
  have hf : s.orders.find? (fun o => o.id = oid) = none := by
    apply List.find?_eq_none.mpr
    intro o ho
    simp only [decide_eq_true_eq]
    exact h o ho
  rw [get_order_summary, hf]

/-- Witness for C8: `sDemo` has no order with id 5. -/
theorem claim_C8_witness : get_order_summary sDemo 5 = none :=
  claim_C8 sDemo 5 (by decide)

/-! ## C10: Python `int` coercion of cart lines -/

/-- `create_order` on `sDemo` with the one-line cart
`[{productId: 1, quantity: v}]`: the outcome depends on the line only
through `int(v)`. -/
theorem create_order_single_sDemo (v : Json) (cn em ph ad ts : String) :
    create_order sDemo cn em ph ad [.obj [("productId", .int 1), ("quantity", v)]] ts =
      match pyInt v with
      | .error e => .error e
      | .ok q =>
        if q ≤ 0 then .error (.valueError "Quantities must be greater than zero.")
        else .ok ({ sDemo with
            orders := [⟨1, cn, em, ph, ad, "received", "", ts⟩],
            orderItems := [⟨1, 1, 1, q⟩],
            nextOrderId := 2, nextOrderItemId := 2 }, 1) := by
  rw [create_order]
  simp only [Bind.bind, List.isEmpty_cons, Bool.false_eq_true, if_false]
  rw [show extractProductIds [.obj [("productId", .int 1), ("quantity", v)]] = .ok [1] from rfl,
    except_bind_ok]
  rw [if_neg (by decide)]
  have hcq : checkQuantities [(.obj [("productId", .int 1), ("quantity", v)] : Json)] =
      Except.bind (pyInt v) (fun q =>
        if q ≤ 0 then .error (.valueError "Quantities must be greater than zero.")
        else .ok ()) := by
    rw [checkQuantities]
    rfl
  rw [hcq]
  cases hv : pyInt v with
  | error e => rw [except_bind_error, except_bind_error]
  | ok q =>
    rw [except_bind_ok]
    dsimp only
    by_cases hq : q ≤ 0
    · rw [if_pos hq, if_pos hq, except_bind_error]
    · rw [if_neg hq, if_neg hq, except_bind_ok]
      have hins : insertOrderItems sDemo.nextOrderId sDemo.nextOrderItemId
          [(.obj [("productId", .int 1), ("quantity", v)] : Json)] = .ok [⟨1, 1, 1, q⟩] := by
        rw [insertOrderItems]
        simp only [Bind.bind]
        rw [show dictGetItem (.obj [("productId", .int 1), ("quantity", v)]) "productId" =
          .ok (.int 1) from rfl, except_bind_ok]
        rw [show pyInt (.int 1) = .ok 1 from rfl, except_bind_ok]
        rw [show dictGetItem (.obj [("productId", .int 1), ("quantity", v)]) "quantity" =
          .ok v from rfl, except_bind_ok, hv, except_bind_ok]
        rfl
      rw [hins, except_bind_ok]
      rfl

/-- **C10**: `create_order` coerces each cart line's productId and quantity
with Python `int` truncation before validating and persisting: an integer
numeric string such as `"3"` (or a string productId `"1"`) is accepted; a
fractional quantity strictly between 0 and 1 truncates to 0 and is rejected
as a non-positive quantity; a fractional quantity of at least 1 is truncated
toward zero and the truncated value is what is stored in `order_items`. -/
theorem claim_C10 :
    ((create_order sDemo "n" "e@x" "123456" "addr"
        [.obj [("productId", .str "1"), ("quantity", .str "3")]] "t").map
          (fun r => (r.1.orderItems, r.2)) = .ok ([⟨1, 1, 1, 3⟩], 1)) ∧
    (∀ q : Rat, 0 < q → q < 1 →
      create_order sDemo "n" "e@x" "123456" "addr"
          [.obj [("productId", .int 1), ("quantity", .float q)]] "t" =
        .error (.valueError "Quantities must be greater than zero.")) ∧
    (∀ q : Rat, 1 ≤ q →
      (create_order sDemo "n" "e@x" "123456" "addr"
          [.obj [("productId", .int 1), ("quantity", .float q)]] "t").map
            (fun r => (r.1.orderItems, r.2)) = .ok ([⟨1, 1, 1, ratTrunc q⟩], 1) ∧
      ratTrunc q = ⌊q⌋) := by
  refine ⟨by decide, ?_, ?_⟩
  · intro q h0 h1
    have htr : ratTrunc q = 0 := by
      rw [ratTrunc, if_pos h0.le]
      exact Int.floor_eq_zero_iff.mpr ⟨h0.le, h1⟩
    rw [create_order_single_sDemo]
    simp only [pyInt, htr]
    rfl
  · intro q h1
    have h0 : (0 : Rat) ≤ q := le_trans zero_le_one h1
    have htr : ratTrunc q = ⌊q⌋ := if_pos h0
    have hge : 1 ≤ ⌊q⌋ := Int.le_floor.mpr (by exact_mod_cast h1)
    refine ⟨?_, htr⟩
    rw [create_order_single_sDemo]
    simp only [pyInt]
    rw [if_neg (by omega)]
    rfl

/-- Witness for C10: quantity 1/2 truncates to 0 and is rejected; quantity
27/10 is accepted and stored truncated. -/
theorem claim_C10_witness :
    create_order sDemo "n" "e@x" "123456" "addr"
        [.obj [("productId", .int 1), ("quantity", .float (1 / 2))]] "t" =
      .error (.valueError "Quantities must be greater than zero.") ∧
    ((create_order sDemo "n" "e@x" "123456" "addr"
        [.obj [("productId", .int 1), ("quantity", .float (27 / 10))]] "t").map
          (fun r => (r.1.orderItems, r.2)) = .ok ([⟨1, 1, 1, ratTrunc (27 / 10)⟩], 1) ∧
      ratTrunc (27 / 10) = ⌊(27 / 10 : Rat)⌋) :=
  ⟨claim_C10.2.1 (1 / 2) (by norm_num) (by norm_num),
   claim_C10.2.2 (27 / 10) (by norm_num)⟩

/-- **C1** counterexample: the cart `[(1, 1), (1, 2)]` on `sDemo` is valid
in the claim's sense — non-empty, both productIds resolve to existing
product 1, both quantities positive — yet `create_order` raises instead of
returning an order id. -/
theorem claim_C1_counterexample :
    (∀ pq ∈ [((1 : Int), (1 : Int)), (1, 2)],
      (∃ p ∈ sDemo.products, p.id = pq.1) ∧ 0 < pq.2) ∧
    create_order sDemo "n" "e@x" "123456" "addr"
        ([((1 : Int), (1 : Int)), (1, 2)].map mkCartItem) "t" =
      .error (.valueError "One or more products do not exist.") := by
  decide

/-! ## C6: the notifier (`app/email_service.py`) -/

/-- The mail-relevant application settings of `app/config.py`
(`SMTP_HOST` and `EMAIL_FROM` are optional environment values). -/
structure Settings where
  smtpHost : Option String
  smtpPort : Int
  smtpUsername : Option String
  smtpPassword : Option String
  emailFrom : Option String
  emailUseTls : Bool
  deriving Repr, DecidableEq

/-- Python truthiness of an optional string (`not settings.smtp_host`):
`None` and the empty string are falsy. -/
def pyTruthyOptStr : Option String → Bool
  | none => false
  | some s => !(s = "")

/-- The `To` header that `build_order_confirmation_email` sets: it is added
only when the summary carries a non-empty recipient email, so
`message.get("To")` is `None` exactly when the summary has no recipient. -/
def messageRecipient (summary : OrderSummary) : Option String :=
  if summary.email = "" then none else some summary.email

/-- Outcome of the single SMTP submission attempt (connect, optional
STARTTLS, optional login, send): either delivered or failed with some
exception. -/
inductive SmtpOutcome where
  | delivered
  | failed (msg : String)
  deriving Repr, DecidableEq

/-- Embeds `send_order_confirmation_email` (email_service.py lines 61-85):
if the SMTP host, from-address or recipient is missing the function logs
and returns `False` without opening a connection; otherwise one send is
attempted and any exception is caught and reported as `False`.  The
function is total — it always returns a boolean to its caller. -/
def send_order_confirmation_email (st : Settings) (summary : OrderSummary)
    (smtp : SmtpOutcome) : Bool :=
  if !(pyTruthyOptStr st.smtpHost) || !(pyTruthyOptStr st.emailFrom) ||
      !(pyTruthyOptStr (messageRecipient summary)) then
    false
  else
    match smtp with
    | .delivered => true
    | .failed _ => false

/-- **C6**: `send_order_confirmation_email` always returns a boolean and
never raises (it is embedded as a total function into `Bool`): whenever
the SMTP host is not configured, or the from-address is not configured, or
the summary carries no recipient email, it returns `false` — and the
result does not depend on the SMTP outcome at all, i.e. no send is
attempted; and any failure during a configured send attempt is caught and
reported as `false`. -/
theorem claim_C6 (st : Settings) (summary : OrderSummary) :
    ((pyTruthyOptStr st.smtpHost = false ∨ pyTruthyOptStr st.emailFrom = false ∨
        summary.email = "") →
      ∀ o o' : SmtpOutcome, send_order_confirmation_email st summary o = false ∧
        send_order_confirmation_email st summary o =
          send_order_confirmation_email st summary o') ∧
    (∀ m, send_order_confirmation_email st summary (.failed m) = false) := by
  constructor
  · intro h o o'
    have hcond : (!(pyTruthyOptStr st.smtpHost) || !(pyTruthyOptStr st.emailFrom) ||
        !(pyTruthyOptStr (messageRecipient summary))) = true := by
      rcases h with h | h | h
      · simp [h]
      · simp [h]
      · simp [messageRecipient, h, pyTruthyOptStr]
    rw [send_order_confirmation_email.eq_def, send_order_confirmation_email.eq_def,
      if_pos hcond, if_pos hcond]
    exact ⟨rfl, rfl⟩
  · intro m
    rw [send_order_confirmation_email.eq_def]
    split
    · rfl
    · rfl

/-- Witness for C6: with no SMTP host configured, the notifier reports
`false` for any SMTP outcome, and a failed configured attempt also reports
`false`. -/
theorem claim_C6_witness :
    (send_order_confirmation_email
        ⟨none, 587, none, none, some "shop@x", true⟩
        ⟨1, "n", "e@x", "123456", "addr", "received", "t", [], 0⟩ .delivered = false ∧
      send_order_confirmation_email
        ⟨none, 587, none, none, some "shop@x", true⟩
        ⟨1, "n", "e@x", "123456", "addr", "received", "t", [], 0⟩ .delivered =
        send_order_confirmation_email
          ⟨none, 587, none, none, some "shop@x", true⟩
          ⟨1, "n", "e@x", "123456", "addr", "received", "t", [], 0⟩ (.failed "boom")) ∧
    send_order_confirmation_email
        ⟨some "smtp.x", 587, none, none, some "shop@x", true⟩
        ⟨1, "n", "e@x", "123456", "addr", "received", "t", [], 0⟩ (.failed "boom") = false :=
  ⟨(claim_C6 ⟨none, 587, none, none, some "shop@x", true⟩
      ⟨1, "n", "e@x", "123456", "addr", "received", "t", [], 0⟩).1
    (Or.inl rfl) .delivered (.failed "boom"),
   (claim_C6 ⟨some "smtp.x", 587, none, none, some "shop@x", true⟩
      ⟨1, "n", "e@x", "123456", "addr", "received", "t", [], 0⟩).2 "boom"⟩

/-! ## C7: HTTP payload validation (`app/server.py`) -/

/-- The per-item loop of `_validate_order_payload`: each cart item must be
a dict carrying both `productId` and `quantity`. -/
def validateItems : List Json → Option String
  | [] => none
  | .obj fs :: rest =>
    if (lookupField fs "productId").isSome && (lookupField fs "quantity").isSome then
      validateItems rest
    else some "Cart items require productId and quantity."
  | _ :: _ => some "Each cart item must be an object."

/-- Embeds `_validate_order_payload` (server.py lines 154-177): the five
required fields in order, then the items-list shape, the email `"@"`
check, the trimmed-phone length check, and the per-item key checks.
A non-list `items` value takes the `Cart cannot be empty.` branch. -/
def validate_order_payload (data : List (String × Json)) : Option String :=
  if (lookupField data "customerName").isNone then some "Missing required field: customerName"
  else if (lookupField data "email").isNone then some "Missing required field: email"
  else if (lookupField data "phone").isNone then some "Missing required field: phone"
  else if (lookupField data "address").isNone then some "Missing required field: address"
  else if (lookupField data "items").isNone then some "Missing required field: items"
  else
    match (lookupField data "items").getD .null with
    | .arr itemsL =>
      if itemsL.isEmpty then some "Cart cannot be empty."
      else
        let email := pyStrip (pyStr ((lookupField data "email").getD .null))
        if !(email.data.contains '@') then some "A valid email address is required."
        else
          let phone := pyStrip (pyStr ((lookupField data "phone").getD .null))
          if phone.length < 6 then some "Phone number looks too short."
          else validateItems itemsL
    | _ => some "Cart cannot be empty."

/-- The HTTP responses `_handle_create_order` can produce from a parsed
body. -/
inductive OrderResponse where
  | badRequest (msg : String)
  | created (orderId : Int)
  | serverError
  deriving Repr, DecidableEq

/-- Python `data[k].strip()` for the four text fields: only `str` has
`.strip`; any other value raises `AttributeError`. -/
def stripField (data : List (String × Json)) (k : String) : Except PyErr String :=
  match lookupField data k with
  | some (.str s) => .ok (pyStrip s)
  | some _ => .error (.attributeError "strip")
  | none => .error (.keyError k)

/-- The `items` argument handed to `create_order`: after a `none` verdict
from `validate_order_payload` the field is always a JSON array, so the
default branch is unreachable. -/
def itemsField (data : List (String × Json)) : List Json :=
  match lookupField data "items" with
  | some (.arr l) => l
  | _ => []

/-- Embeds `_handle_create_order` (server.py lines 89-139) from the parsed
JSON body onward, additionally reporting whether the Order Store
(`create_order`) was invoked.  A validation verdict returns 400 before any
store call.  `.strip()` on a non-string field raises `AttributeError`,
which the blanket `except Exception` maps to 500 — still before any store
call.  A `ValueError` escaping `create_order` maps to 400, any other
exception to 500; on success the 201 response is returned regardless of
the subsequent read-only summary lookup and best-effort email send. -/
def handle_create_order (s : DBState) (data : List (String × Json)) (ts : String) :
    OrderResponse × Bool × DBState :=
  match validate_order_payload data with
  | some msg => (.badRequest msg, false, s)
  | none =>
    match stripField data "customerName" with
    | .error _ => (.serverError, false, s)
    | .ok cn =>
      match stripField data "email" with
      | .error _ => (.serverError, false, s)
      | .ok em =>
        match stripField data "phone" with
        | .error _ => (.serverError, false, s)
        | .ok ph =>
          match stripField data "address" with
          | .error _ => (.serverError, false, s)
          | .ok ad =>
            match create_order s cn em ph ad (itemsField data) ts with
            | .ok (s', oid) => (.created oid, true, s')
            | .error (.valueError msg) => (.badRequest msg, true, s)
            | .error _ => (.serverError, true, s)

/-- The rejection condition of the claim: a required field absent, or
`items` not a non-empty list of objects each carrying `productId` and
`quantity`, or the stripped stringification of `email` without `"@"`, or
the stripped stringification of `phone` shorter than 6 characters. -/
def rejectCond (data : List (String × Json)) : Prop :=
  (lookupField data "customerName").isNone = true ∨
  (lookupField data "email").isNone = true ∨
  (lookupField data "phone").isNone = true ∨
  (lookupField data "address").isNone = true ∨
  (lookupField data "items").isNone = true ∨
  (¬ ∃ l, (lookupField data "items").getD .null = Json.arr l ∧ l ≠ [] ∧
      ∀ it ∈ l, ∃ fs, it = Json.obj fs ∧
        (lookupField fs "productId").isSome = true ∧
        (lookupField fs "quantity").isSome = true) ∨
  (pyStrip (pyStr ((lookupField data "email").getD .null))).data.contains '@' = false ∨
  (pyStrip (pyStr ((lookupField data "phone").getD .null))).length < 6

theorem validateItems_eq_none_iff (l : List Json) :
    validateItems l = none ↔ ∀ it ∈ l, ∃ fs, it = Json.obj fs ∧
      (lookupField fs "productId").isSome = true ∧
      (lookupField fs "quantity").isSome = true := by
  induction l with
  | nil => simp [validateItems]
  | cons it rest ih =>
    cases it with
    | obj fs =>
      by_cases hk : ((lookupField fs "productId").isSome &&
          (lookupField fs "quantity").isSome) = true
      · rw [validateItems, if_pos hk]
        rw [Bool.and_eq_true] at hk
        rw [ih, List.forall_mem_cons]
        constructor
        · intro h; exact ⟨⟨fs, rfl, hk.1, hk.2⟩, h⟩
        · intro h; exact h.2
      · rw [validateItems, if_neg hk]
        rw [Bool.and_eq_true] at hk
        constructor
        · intro h; cases h
        · intro h
          rcases (List.forall_mem_cons.mp h).1 with ⟨fs', he, h1, h2⟩
          cases he
          exact (hk ⟨h1, h2⟩).elim
    | null =>
      simp only [validateItems]
      constructor
      · intro h; cases h
      · intro h
        rcases (List.forall_mem_cons.mp h).1 with ⟨fs', he, -⟩
        cases he
    | bool b =>
      simp only [validateItems]
      constructor
      · intro h; cases h
      · intro h
        rcases (List.forall_mem_cons.mp h).1 with ⟨fs', he, -⟩
        cases he
    | int n =>
      simp only [validateItems]
      constructor
      · intro h; cases h
      · intro h
        rcases (List.forall_mem_cons.mp h).1 with ⟨fs', he, -⟩
        cases he
    | float q =>
      simp only [validateItems]
      constructor
      · intro h; cases h
      · intro h
        rcases (List.forall_mem_cons.mp h).1 with ⟨fs', he, -⟩
        cases he
    | str t =>
      simp only [validateItems]
      constructor
      · intro h; cases h
      · intro h
        rcases (List.forall_mem_cons.mp h).1 with ⟨fs', he, -⟩
        cases he
    | arr xs =>
      simp only [validateItems]
      constructor
      · intro h; cases h
      · intro h
        rcases (List.forall_mem_cons.mp h).1 with ⟨fs', he, -⟩
        cases he

/-- **C7** (amended).  The frozen claim's final clause "otherwise
validation passes and create_order is invoked" fails when a text field is
present but not a string (see `claim_C7_counterexample`): the handler's
`.strip()` then raises before the Order Store is reached and the request
ends in a 500.  Amended: for every parsed request body whose `email` and
`phone` fields (when present) are JSON strings, the HTTP-level validation
rejects with a 400, before the Order Store is invoked, iff a required
field is absent, or `items` is not a non-empty list of objects each
carrying `productId` and `quantity`, or the trimmed email lacks `"@"`, or
the trimmed phone is shorter than 6 characters; otherwise validation
passes, and when the four text fields are strings `create_order` is
invoked. -/
theorem claim_C7 (s : DBState) (ts : String) (data : List (String × Json))
    (_hem : ∀ v, lookupField data "email" = some v → ∃ t, v = Json.str t)
    (_hph : ∀ v, lookupField data "phone" = some v → ∃ t, v = Json.str t) :
    ((validate_order_payload data).isSome ↔ rejectCond data) ∧
    (∀ msg, validate_order_payload data = some msg →
      handle_create_order s data ts = (.badRequest msg, false, s)) ∧
    (validate_order_payload data = none →
      (∀ k ∈ ["customerName", "email", "phone", "address"],
        ∃ t, lookupField data k = some (Json.str t)) →
      (handle_create_order s data ts).2.1 = true) := by
  refine ⟨?_, ?_, ?_⟩
  · rw [validate_order_payload]
    by_cases h1 : (lookupField data "customerName").isNone = true
    · rw [if_pos h1]
      simp [rejectCond, h1]
    rw [if_neg h1]
    by_cases h2 : (lookupField data "email").isNone = true
    · rw [if_pos h2]
      simp [rejectCond, h2]
    rw [if_neg h2]
    by_cases h3 : (lookupField data "phone").isNone = true
    · rw [if_pos h3]
      simp [rejectCond, h3]
    rw [if_neg h3]
    by_cases h4 : (lookupField data "address").isNone = true
    · rw [if_pos h4]
      simp [rejectCond, h4]
    rw [if_neg h4]
    by_cases h5 : (lookupField data "items").isNone = true
    · rw [if_pos h5]
      simp [rejectCond, h5]
    rw [if_neg h5]
    have hrc : rejectCond data ↔
        ((¬ ∃ l, (lookupField data "items").getD .null = Json.arr l ∧ l ≠ [] ∧
          ∀ it ∈ l, ∃ fs, it = Json.obj fs ∧
            (lookupField fs "productId").isSome = true ∧
            (lookupField fs "quantity").isSome = true) ∨
        (pyStrip (pyStr ((lookupField data "email").getD .null))).data.contains '@' = false ∨
        (pyStrip (pyStr ((lookupField data "phone").getD .null))).length < 6) := by
      rw [rejectCond]
      simp [h1, h2, h3, h4, h5]
    rw [hrc]
    cases hit : (lookupField data "items").getD Json.null with
    | arr l =>
      dsimp only
      by_cases hl : l.isEmpty = true
      · rw [List.isEmpty_iff] at hl
        subst hl
        simp
      · have hlne : l ≠ [] := fun h => hl (by simp [h])
        rw [if_neg hl]
        by_cases he : (pyStrip (pyStr ((lookupField data "email").getD .null))).data.contains
            '@' = false
        · rw [if_pos (by rw [he]; rfl)]
          exact iff_of_true rfl (Or.inr (Or.inl he))
        · have he' : (pyStrip (pyStr ((lookupField data "email").getD .null))).data.contains
              '@' = true := eq_true_of_ne_false he
          rw [if_neg (by rw [he']; simp)]
          by_cases hp : (pyStrip (pyStr ((lookupField data "phone").getD .null))).length < 6
          · rw [if_pos hp]
            exact iff_of_true rfl (Or.inr (Or.inr hp))
          · rw [if_neg hp]
            rw [Option.isSome_iff_ne_none, ne_eq, validateItems_eq_none_iff]
            constructor
            · intro hnot
              refine Or.inl ?_
              rintro ⟨l', hll', -, hall⟩
              cases hll'
              exact hnot hall
            · intro hdis hall
              rcases hdis with hd | hd | hd
              · exact hd ⟨l, rfl, hlne, hall⟩
              · rw [he'] at hd; cases hd
              · exact hp hd
    | null => simp
    | bool b => simp
    | int n => simp
    | float q => simp
    | str t => simp
    | obj fs => simp
  · intro msg hmsg
    rw [handle_create_order.eq_def, hmsg]
  · intro hnone hflds
    obtain ⟨tc, htc⟩ := hflds "customerName" (by simp)
    obtain ⟨te, hte⟩ := hflds "email" (by simp)
    obtain ⟨tp, htp⟩ := hflds "phone" (by simp)
    obtain ⟨ta, hta⟩ := hflds "address" (by simp)
    have hsc : stripField data "customerName" = .ok (pyStrip tc) := by
      unfold stripField; rw [htc]
    have hse : stripField data "email" = .ok (pyStrip te) := by
      unfold stripField; rw [hte]
    have hsp : stripField data "phone" = .ok (pyStrip tp) := by
      unfold stripField; rw [htp]
    have hsa : stripField data "address" = .ok (pyStrip ta) := by
      unfold stripField; rw [hta]
    rw [handle_create_order.eq_def, hnone]
    dsimp only
    rw [hsc, hse, hsp, hsa]
    dsimp only
    cases hco : create_order s (pyStrip tc) (pyStrip te) (pyStrip tp) (pyStrip ta)
        (itemsField data) ts with
    | ok r => obtain ⟨s', oid⟩ := r; rfl
    | error e => cases e <;> rfl

/-- A payload whose five fields are all present and well-shaped except
that `customerName` is the JSON number 5 rather than a string. -/
def badPayload : List (String × Json) :=
  [("customerName", .int 5), ("email", .str "a@b.c"), ("phone", .str "123456"),
   ("address", .str "x"),
   ("items", .arr [.obj [("productId", .int 1), ("quantity", .int 1)]])]

/-- **C7** counterexample: `badPayload` passes `_validate_order_payload`
(so it is not rejected with a 400 by validation) and none of the claim's
rejection conditions hold, yet the handler returns a 500 and `create_order`
is never invoked: `data["customerName"].strip()` raises `AttributeError`
first.  This refutes the claim's "otherwise validation passes and
create_order is invoked". -/
theorem claim_C7_counterexample :
    validate_order_payload badPayload = none ∧
    handle_create_order sDemo badPayload "t" = (.serverError, false, sDemo) := by
  constructor
  · rfl
  · rfl

/-- Witness for C7: the rejection iff at a concrete payload with
string-valued email and phone. -/
theorem claim_C7_witness :
    (validate_order_payload
        [("customerName", Json.str "Z"), ("email", Json.str "a@b.c"),
         ("phone", Json.str " 123456 "), ("address", Json.str "x"),
         ("items", Json.arr [Json.obj [("productId", Json.int 1), ("quantity", Json.int 1)]])]).isSome
      ↔ rejectCond
        [("customerName", Json.str "Z"), ("email", Json.str "a@b.c"),
         ("phone", Json.str " 123456 "), ("address", Json.str "x"),
         ("items", Json.arr [Json.obj [("productId", Json.int 1), ("quantity", Json.int 1)]])] :=
  (claim_C7 sDemo "t"
    [("customerName", Json.str "Z"), ("email", Json.str "a@b.c"),
     ("phone", Json.str " 123456 "), ("address", Json.str "x"),
     ("items", Json.arr [Json.obj [("productId", Json.int 1), ("quantity", Json.int 1)]])]
    (fun v h => ⟨"a@b.c", by cases h; rfl⟩)
    (fun v h => ⟨" 123456 ", by cases h; rfl⟩)).1

/-! ## C4: the catalog projection (`get_catalog`, database.py lines 690-736) -/

/-- `ORDER BY name` on categories (SQLite's default `BINARY` collation:
code-point order). -/
def categoryNameLe (a b : CategoryRow) : Prop := a.name ≤ b.name

instance : DecidableRel categoryNameLe := fun a b => by
  unfold categoryNameLe; infer_instance

instance : IsTotal CategoryRow categoryNameLe := ⟨fun a b => le_total a.name b.name⟩

instance : IsTrans CategoryRow categoryNameLe := ⟨fun _ _ _ hab hbc => le_trans hab hbc⟩

/-- `ORDER BY subcategory, name` on products. -/
def productKeyLe (p q : ProductRow) : Prop :=
  p.subcategory < q.subcategory ∨ (p.subcategory = q.subcategory ∧ p.name ≤ q.name)

instance : DecidableRel productKeyLe := fun p q => by
  unfold productKeyLe; infer_instance

instance : IsTotal ProductRow productKeyLe :=
  ⟨fun p q => by
    rcases lt_trichotomy p.subcategory q.subcategory with h | h | h
    · exact Or.inl (Or.inl h)
    · rcases le_total p.name q.name with h' | h'
      · exact Or.inl (Or.inr ⟨h, h'⟩)
      · exact Or.inr (Or.inr ⟨h.symm, h'⟩)
    · exact Or.inr (Or.inl h)⟩

instance : IsTrans ProductRow productKeyLe :=
  ⟨fun p q r hpq hqr => by
    rcases hpq with h1 | ⟨h1, h1'⟩ <;> rcases hqr with h2 | ⟨h2, h2'⟩
    · exact Or.inl (lt_trans h1 h2)
    · exact Or.inl (h2 ▸ h1)
    · exact Or.inl (h1 ▸ h2)
    · exact Or.inr ⟨h1.trans h2, le_trans h1' h2'⟩⟩

/-- An item of the catalog payload. -/
structure CatalogItem where
  id : Int
  name : String
  description : Option String
  unit : Option String
  price : Rat
  imageUrl : Option String
  deriving Repr, DecidableEq

/-- Projection of a product row into the catalog payload. -/
def toCatalogItem (p : ProductRow) : CatalogItem :=
  { id := p.id, name := p.name, description := p.description, unit := p.unit,
    price := p.price, imageUrl := p.imageUrl }

/-- A subcategory group of the catalog payload. -/
structure SubcatGroup where
  subcategory : String
  items : List CatalogItem
  deriving Repr, DecidableEq

/-- One element of the catalog payload. -/
structure CatalogCategory where
  id : Int
  slug : String
  name : String
  description : Option String
  imageUrl : Option String
  subcategories : List SubcatGroup
  deriving Repr, DecidableEq

/-- One step of the `subcategory_map.setdefault(...)` loop of
`get_catalog`: append the product to the (unique) group already keyed by
its subcategory, or append a fresh group at the end — Python dicts
preserve insertion order. -/
def insertGrouped (groups : List (String × List ProductRow)) (p : ProductRow) :
    List (String × List ProductRow) :=
  match groups with
  | [] => [(p.subcategory, [p])]
  | g :: rest =>
    if g.1 = p.subcategory then (g.1, g.2 ++ [p]) :: rest
    else g :: insertGrouped rest p

/-- The grouping loop of `get_catalog` over the sorted product rows. -/
def groupRows (ps : List ProductRow) : List (String × List ProductRow) :=
  ps.foldl insertGrouped []

/-- Embeds `get_catalog` (lines 690-736): categories `ORDER BY name`;
within each category its products `ORDER BY subcategory, name`, grouped by
subcategory label in insertion order. -/
def get_catalog (s : DBState) : List CatalogCategory :=
  (List.insertionSort categoryNameLe s.categories).map (fun c =>
    { id := c.id, slug := c.slug, name := c.name, description := c.description,
      imageUrl := c.imageUrl,
      subcategories :=
        (groupRows (List.insertionSort productKeyLe
            (s.products.filter (fun p => p.categoryId = c.id)))).map
          (fun g => { subcategory := g.1, items := g.2.map toCatalogItem }) })

/-- Invariant of the grouping accumulator: groups non-empty, every row
under its own key, keys strictly increasing, rows of each group sorted by
name. -/
def GoodGroups (gs : List (String × List ProductRow)) : Prop :=
  (∀ g ∈ gs, g.2 ≠ []) ∧
  (∀ g ∈ gs, ∀ p ∈ g.2, p.subcategory = g.1) ∧
  (gs.map Prod.fst).Pairwise (· < ·) ∧
  (∀ g ∈ gs, (g.2.map (fun p => p.name)).Pairwise (· ≤ ·))

theorem insertGrouped_rows_subset {p : ProductRow} :
    ∀ {gs : List (String × List ProductRow)} {g' : String × List ProductRow},
      g' ∈ insertGrouped gs p → ∀ {x}, x ∈ g'.2 →
      (∃ g ∈ gs, x ∈ g.2) ∨ x = p := by
  intro gs
  induction gs with
  | nil =>
    intro g' hg' x hx
    rw [insertGrouped] at hg'
    rcases List.mem_singleton.mp hg' with rfl
    rcases List.mem_singleton.mp hx with rfl
    exact Or.inr rfl
  | cons g rest ih =>
    intro g' hg' x hx
    rw [insertGrouped] at hg'
    by_cases h : g.1 = p.subcategory
    · rw [if_pos h] at hg'
      rcases List.mem_cons.mp hg' with rfl | hmem
      · rcases List.mem_append.mp hx with hx' | hx'
        · exact Or.inl ⟨g, List.mem_cons_self .., hx'⟩
        · exact Or.inr (List.mem_singleton.mp hx')
      · exact Or.inl ⟨g', List.mem_cons_of_mem _ hmem, hx⟩
    · rw [if_neg h] at hg'
      rcases List.mem_cons.mp hg' with rfl | hmem
      · exact Or.inl ⟨g', List.mem_cons_self .., hx⟩
      · rcases ih hmem hx with ⟨g0, hg0, hx0⟩ | hx0
        · exact Or.inl ⟨g0, List.mem_cons_of_mem _ hg0, hx0⟩
        · exact Or.inr hx0

theorem insertGrouped_keys {p : ProductRow} :
    ∀ (gs : List (String × List ProductRow)),
      (insertGrouped gs p).map Prod.fst = gs.map Prod.fst ∨
      (insertGrouped gs p).map Prod.fst = gs.map Prod.fst ++ [p.subcategory] := by
  intro gs
  induction gs with
  | nil => exact Or.inr rfl
  | cons g rest ih =>
    rw [insertGrouped]
    by_cases h : g.1 = p.subcategory
    · rw [if_pos h]
      exact Or.inl rfl
    · rw [if_neg h]
      rcases ih with ih' | ih'
      · exact Or.inl (by simp [ih'])
      · exact Or.inr (by simp [ih'])

theorem insertGrouped_good {p : ProductRow} :
    ∀ {gs : List (String × List ProductRow)}, GoodGroups gs →
      (∀ g ∈ gs, ∀ x ∈ g.2, productKeyLe x p) →
      GoodGroups (insertGrouped gs p) := by
  intro gs
  induction gs with
  | nil =>
    intro _ _
    refine ⟨?_, ?_, ?_, ?_⟩ <;> simp [insertGrouped]
  | cons g rest ih =>
    intro hg hle
    obtain ⟨hne, hkey, hpw, hnm⟩ := hg
    rw [insertGrouped]
    by_cases h : g.1 = p.subcategory
    · rw [if_pos h]
      refine ⟨?_, ?_, ?_, ?_⟩
      · intro g' hg'
        rcases List.mem_cons.mp hg' with rfl | hmem
        · simp
        · exact hne g' (List.mem_cons_of_mem _ hmem)
      · intro g' hg' x hx
        rcases List.mem_cons.mp hg' with rfl | hmem
        · rcases List.mem_append.mp hx with hx' | hx'
          · exact hkey g (List.mem_cons_self ..) x hx'
          · rcases List.mem_singleton.mp hx' with rfl
            exact h.symm
        · exact hkey g' (List.mem_cons_of_mem _ hmem) x hx
      · simpa using hpw
      · intro g' hg'
        rcases List.mem_cons.mp hg' with rfl | hmem
        · rw [List.map_append, List.pairwise_append]
          refine ⟨hnm g (List.mem_cons_self ..), by simp, ?_⟩
          intro a ha b hb
          rcases List.mem_map.mp ha with ⟨x, hx, rfl⟩
          rcases List.mem_singleton.mp hb with rfl
          have hx' := hle g (List.mem_cons_self ..) x hx
          rcases hx' with hlt | ⟨-, hnm'⟩
          · rw [hkey g (List.mem_cons_self ..) x hx, h] at hlt
            exact absurd hlt (lt_irrefl _)
          · exact hnm'
        · exact hnm g' (List.mem_cons_of_mem _ hmem)
    · rw [if_neg h]
      have hgrest : GoodGroups rest :=
        ⟨fun g' hg' => hne g' (List.mem_cons_of_mem _ hg'),
         fun g' hg' => hkey g' (List.mem_cons_of_mem _ hg'),
         (List.pairwise_cons.mp hpw).2,
         fun g' hg' => hnm g' (List.mem_cons_of_mem _ hg')⟩
      have hlerest : ∀ g' ∈ rest, ∀ x ∈ g'.2, productKeyLe x p :=
        fun g' hg' => hle g' (List.mem_cons_of_mem _ hg')
      obtain ⟨ine, ikey, ipw, inm⟩ := ih hgrest hlerest
      refine ⟨?_, ?_, ?_, ?_⟩
      · intro g' hg'
        rcases List.mem_cons.mp hg' with rfl | hmem
        · exact hne g' (List.mem_cons_self ..)
        · exact ine g' hmem
      · intro g' hg' x hx
        rcases List.mem_cons.mp hg' with rfl | hmem
        · exact hkey g' (List.mem_cons_self ..) x hx
        · exact ikey g' hmem x hx
      · rw [List.map_cons, List.pairwise_cons]
        refine ⟨?_, ipw⟩
        intro k hk
        have hglt : ∀ k' ∈ rest.map Prod.fst, g.1 < k' :=
          (List.pairwise_cons.mp
            (show (g.1 :: rest.map Prod.fst).Pairwise (· < ·) from hpw)).1
        rcases insertGrouped_keys rest with hkeq | hkeq
        · exact hglt k (hkeq ▸ hk)
        · rw [hkeq] at hk
          rcases List.mem_append.mp hk with hk' | hk'
          · exact hglt k hk'
          · rcases List.mem_singleton.mp hk' with rfl
            obtain ⟨x, hx⟩ := List.exists_mem_of_ne_nil _ (hne g (List.mem_cons_self ..))
            have hxle := hle g (List.mem_cons_self ..) x hx
            have hxs := hkey g (List.mem_cons_self ..) x hx
            rcases hxle with hlt | ⟨heq, -⟩
            · rw [hxs] at hlt
              exact hlt
            · rw [hxs] at heq
              exact absurd heq h
      · intro g' hg'
        rcases List.mem_cons.mp hg' with rfl | hmem
        · exact hnm g' (List.mem_cons_self ..)
        · exact inm g' hmem

theorem groupRows_go_good :
    ∀ (ps : List ProductRow) (gs : List (String × List ProductRow)),
      GoodGroups gs →
      ps.Pairwise productKeyLe →
      (∀ g ∈ gs, ∀ x ∈ g.2, ∀ q ∈ ps, productKeyLe x q) →
      GoodGroups (ps.foldl insertGrouped gs) := by
  intro ps
  induction ps with
  | nil => intro gs h _ _; exact h
  | cons p rest ih =>
    intro gs hg hs hbr
    rw [List.foldl_cons]
    apply ih
    · exact insertGrouped_good hg
        (fun g hg' x hx => hbr g hg' x hx p (List.mem_cons_self ..))
    · exact (List.pairwise_cons.mp hs).2
    · intro g hg' x hx q hq
      rcases insertGrouped_rows_subset hg' hx with ⟨g0, hg0, hx0⟩ | rfl
      · exact hbr g0 hg0 x hx0 q (List.mem_cons_of_mem _ hq)
      · exact (List.pairwise_cons.mp hs).1 q hq

theorem groupRows_good {ps : List ProductRow} (hs : ps.Pairwise productKeyLe) :
    GoodGroups (groupRows ps) :=
  groupRows_go_good ps [] ⟨by simp, by simp, by simp, by simp⟩ hs (by simp)

/-- **C4**: `get_catalog` returns the categories sorted by name in
ascending (code-point) order, and within each category the subcategory
groups in strictly ascending subcategory order with each group's items in
ascending name order; consequently the flattened `(subcategory, name)`
sequence of every category is sorted lexicographically. -/
theorem claim_C4 (s : DBState) :
    ((get_catalog s).map (fun c => c.name)).Pairwise (· ≤ ·) ∧
    ∀ c ∈ get_catalog s,
      ((c.subcategories.map (fun g => g.subcategory)).Pairwise (· < ·) ∧
       (∀ g ∈ c.subcategories, (g.items.map (fun i => i.name)).Pairwise (· ≤ ·)) ∧
       ((c.subcategories.map (fun g =>
          g.items.map (fun i => (g.subcategory, i.name)))).flatten).Pairwise
         (fun a b => a.1 < b.1 ∨ (a.1 = b.1 ∧ a.2 ≤ b.2))) := by
  constructor
  · rw [get_catalog, List.map_map]
    exact (List.sorted_insertionSort categoryNameLe s.categories).map _ (fun a b h => h)
  · intro c hc
    rw [get_catalog] at hc
    rcases List.mem_map.mp hc with ⟨c0, -, rfl⟩
    have hsorted := List.sorted_insertionSort productKeyLe
      (s.products.filter (fun p => p.categoryId = c0.id))
    obtain ⟨hne, hkey, hpw, hnm⟩ := groupRows_good hsorted
    set gr := groupRows (List.insertionSort productKeyLe
      (s.products.filter (fun p => p.categoryId = c0.id))) with hgr
    refine ⟨?_, ?_, ?_⟩
    · rw [List.map_map]
      exact hpw
    · intro g hg
      rcases List.mem_map.mp hg with ⟨g0, hg0, rfl⟩
      rw [List.map_map]
      exact hnm g0 hg0
    · rw [List.pairwise_flatten]
      constructor
      · intro l hl
        rcases List.mem_map.mp hl with ⟨g, hgmem, rfl⟩
        rcases List.mem_map.mp hgmem with ⟨g0, hg0, rfl⟩
        rw [List.map_map]
        have hnm' : g0.2.Pairwise (fun p q => p.name ≤ q.name) :=
          List.pairwise_map.mp (hnm g0 hg0)
        exact List.Pairwise.map _ (fun a b h => Or.inr ⟨rfl, h⟩) hnm'
      · rw [List.map_map, List.pairwise_map]
        have hpw' : gr.Pairwise (fun a b => a.1 < b.1) := List.pairwise_map.mp hpw
        refine hpw'.imp_of_mem ?_
        intro g0 g1 hg0m hg1m hlt x hx y hy
        rcases List.mem_map.mp hx with ⟨i, -, rfl⟩
        rcases List.mem_map.mp hy with ⟨j, -, rfl⟩
        exact Or.inl hlt

/-- Witness for C4: the catalog ordering facts at the concrete state
`sSpec`. -/
theorem claim_C4_witness :
    ((get_catalog sSpec).map (fun c => c.name)).Pairwise (· ≤ ·) ∧
    ∀ c ∈ get_catalog sSpec,
      ((c.subcategories.map (fun g => g.subcategory)).Pairwise (· < ·) ∧
       (∀ g ∈ c.subcategories, (g.items.map (fun i => i.name)).Pairwise (· ≤ ·)) ∧
       ((c.subcategories.map (fun g =>
          g.items.map (fun i => (g.subcategory, i.name)))).flatten).Pairwise
         (fun a b => a.1 < b.1 ∨ (a.1 = b.1 ∧ a.2 ≤ b.2))) :=
  claim_C4 sSpec

/-! ## C5 and C9: seeding, reconciliation and migrations
(`seed_data`, `_apply_migrations`, database.py) -/

/-- One product entry of the canonical seed catalog (every entry of the
source literal carries all six keys). -/
structure SeedItem where
  subcategory : String
  name : String
  unit : String
  price : Rat
  description : String
  imageUrl : String
  deriving Repr, DecidableEq

/-- One category entry of the canonical seed catalog. -/
structure SeedCategory where
  slug : String
  name : String
  description : String
  imageUrl : String
  items : List SeedItem
  deriving Repr, DecidableEq

/-- The canonical `catalog_seed` literal of `seed_data` (database.py lines 96-582). -/
def catalog_seed : List SeedCategory :=
  [
   { slug := "detergent-cleaning",
     name := "Detergent & Cleaning Liquids",
     description := "Bulk chlorine, antiseptic solutions, floor detergents, dishwashing liquids and hand soaps for kitchen hygiene protocols.",
     imageUrl := "/static/images/category-detergent.svg",
     items := [
       { subcategory := "Chlorine", name := "Chlorine 4L", unit := "Jerrycan 4L", price := 0,
         description := "Concentrated chlorine for dishwashing stations.", imageUrl := "/static/images/product-chlorine.svg" },
       { subcategory := "Chlorine", name := "Chlorine 10L", unit := "Jerrycan 10L", price := 0,
         description := "Medium volume chlorine for daily cleaning.", imageUrl := "/static/images/product-chlorine.svg" },
       { subcategory := "Chlorine", name := "Chlorine 22L", unit := "Jerrycan 22L", price := 0,
         description := "High capacity chlorine stock.", imageUrl := "/static/images/product-chlorine.svg" },
       { subcategory := "Chlorine", name := "Chlorine 30L", unit := "Jerrycan 30L", price := 0,
         description := "Bulk chlorine for central kitchens.", imageUrl := "/static/images/product-chlorine.svg" },
       { subcategory := "Antiseptic", name := "Antiseptic 4L", unit := "Jerrycan 4L", price := 0,
         description := "Ready-to-use antiseptic for food-prep surfaces.", imageUrl := "/static/images/product-antiseptic.svg" },
       { subcategory := "Antiseptic", name := "Antiseptic 10L", unit := "Jerrycan 10L", price := 0,
         description := "Bulk supply for high-frequency sanitation.", imageUrl := "/static/images/product-antiseptic.svg" },
       { subcategory := "Floor Detergent", name := "Floor Detergent 4L", unit := "Jerrycan 4L", price := 0,
         description := "Neutral floor cleaner for daily maintenance.", imageUrl := "/static/images/product-floor.svg" },
       { subcategory := "Floor Detergent", name := "Floor Detergent 10L", unit := "Jerrycan 10L", price := 0,
         description := "High coverage floor detergent.", imageUrl := "/static/images/product-floor.svg" },
       { subcategory := "Floor Detergent", name := "Floor Detergent 22L", unit := "Jerrycan 22L", price := 0,
         description := "Bulk floor detergent for large venues.", imageUrl := "/static/images/product-floor.svg" },
       { subcategory := "Floor Detergent", name := "Floor Detergent 30L", unit := "Jerrycan 30L", price := 0,
         description := "Heavy-duty stock for facilities teams.", imageUrl := "/static/images/product-floor.svg" },
       { subcategory := "Dishwashing", name := "Dishwashing 4L", unit := "Jerrycan 4L", price := 0,
         description := "Concentrated dishwashing liquid.", imageUrl := "/static/images/product-dish.svg" },
       { subcategory := "Dishwashing", name := "Dishwashing 10L", unit := "Jerrycan 10L", price := 0,
         description := "Economical pack for dishwashing lines.", imageUrl := "/static/images/product-dish.svg" },
       { subcategory := "Dishwashing", name := "Dishwashing 22L", unit := "Jerrycan 22L", price := 0,
         description := "Bulk supply for central dish rooms.", imageUrl := "/static/images/product-dish.svg" },
       { subcategory := "Dishwashing", name := "Dishwashing 30L", unit := "Jerrycan 30L", price := 0,
         description := "Maximum volume dishwashing liquid.", imageUrl := "/static/images/product-dish.svg" },
       { subcategory := "Hand Soap", name := "Hand Soap 4L", unit := "Jerrycan 4L", price := 0,
         description := "Fragrance-free formula suitable for kitchen teams.", imageUrl := "/static/images/product-hand-soap.svg" },
       { subcategory := "Hand Soap", name := "Hand Soap 10L", unit := "Jerrycan 10L", price := 0,
         description := "High-volume refill for dispenser systems.", imageUrl := "/static/images/product-hand-soap.svg" }]
   },
   { slug := "food-packaging",
     name := "Food & Packaging Containers",
     description := "Pizza boxes, plastic takeaway containers, salad bowls and kraft packaging for delivery and dine-out programs.",
     imageUrl := "/static/images/category-packaging.svg",
     items := [
       { subcategory := "Pizza Boxes", name := "Pizza Box 20cm", unit := "Bundle", price := 0,
         description := "Corrugated pizza box 20cm, vented.", imageUrl := "/static/images/product-pizza-box.svg" },
       { subcategory := "Pizza Boxes", name := "Pizza Box 30cm", unit := "Bundle", price := 0,
         description := "Corrugated pizza box 30cm, vented.", imageUrl := "/static/images/product-pizza-box.svg" },
       { subcategory := "Pizza Boxes", name := "Pizza Box 35cm", unit := "Bundle", price := 0,
         description := "Wide format pizza box 35cm.", imageUrl := "/static/images/product-pizza-box.svg" },
       { subcategory := "Pizza Boxes", name := "Pizza Box 40cm", unit := "Bundle", price := 0,
         description := "XL pizza box 40cm for family portions.", imageUrl := "/static/images/product-pizza-box.svg" },
       { subcategory := "Plastic Boxes", name := "Plastic Box 100cc", unit := "Carton", price := 0,
         description := "Microwave-safe PP box 100cc.", imageUrl := "/static/images/product-plastic-box.svg" },
       { subcategory := "Plastic Boxes", name := "Plastic Box 150cc", unit := "Carton", price := 0,
         description := "Microwave-safe PP box 150cc.", imageUrl := "/static/images/product-plastic-box.svg" },
       { subcategory := "Plastic Boxes", name := "Plastic Box 375cc", unit := "Carton", price := 0,
         description := "Microwave-safe PP box 375cc.", imageUrl := "/static/images/product-plastic-box.svg" },
       { subcategory := "Plastic Boxes", name := "Plastic Box 750cc", unit := "Carton", price := 0,
         description := "Microwave-safe PP box 750cc.", imageUrl := "/static/images/product-plastic-box.svg" },
       { subcategory := "Plastic Boxes", name := "Plastic Box 1000cc", unit := "Carton", price := 0,
         description := "Microwave-safe PP box 1000cc.", imageUrl := "/static/images/product-plastic-box.svg" },
       { subcategory := "Plastic Boxes", name := "Plastic Box 1500cc", unit := "Carton", price := 0,
         description := "Microwave-safe PP box 1500cc.", imageUrl := "/static/images/product-plastic-box.svg" },
       { subcategory := "Sandwich Wrappers", name := "Sandwich Wrappers", unit := "Bundle", price := 0,
         description := "Grease-resistant sandwich wrap sheets.", imageUrl := "/static/images/product-wrapper.svg" },
       { subcategory := "Salad Bowls", name := "Salad Bowls", unit := "Carton", price := 0,
         description := "Clear salad bowls with lid.", imageUrl := "/static/images/product-salad-bowl.svg" },
       { subcategory := "Kraft Bags", name := "Kraft Bags", unit := "Bundle", price := 0,
         description := "Sturdy kraft takeaway bags.", imageUrl := "/static/images/product-kraft-bag.svg" },
       { subcategory := "Carton Plates", name := "Carton Plates", unit := "Bundle", price := 0,
         description := "Rigid carton plates for catering service.", imageUrl := "/static/images/product-carton-plate.svg" }]
   },
   { slug := "hygiene-safety",
     name := "Hygiene & Safety",
     description := "Protective gloves, hair nets, sleeves and trash bags for front and back of house teams.",
     imageUrl := "/static/images/category-hygiene.svg",
     items := [
       { subcategory := "Gloves", name := "Latex Gloves - Small (Blue)", unit := "Box", price := 0,
         description := "Powder-free latex gloves, blue, size small.", imageUrl := "/static/images/product-gloves.svg" },
       { subcategory := "Gloves", name := "Latex Gloves - Medium (Blue)", unit := "Box", price := 0,
         description := "Powder-free latex gloves, blue, size medium.", imageUrl := "/static/images/product-gloves.svg" },
       { subcategory := "Gloves", name := "Latex Gloves - Large (Blue)", unit := "Box", price := 0,
         description := "Powder-free latex gloves, blue, size large.", imageUrl := "/static/images/product-gloves.svg" },
       { subcategory := "Gloves", name := "Latex Gloves - Small (Black)", unit := "Box", price := 0,
         description := "Powder-free latex gloves, black, size small.", imageUrl := "/static/images/product-gloves.svg" },
       { subcategory := "Gloves", name := "Latex Gloves - Medium (Black)", unit := "Box", price := 0,
         description := "Powder-free latex gloves, black, size medium.", imageUrl := "/static/images/product-gloves.svg" },
       { subcategory := "Gloves", name := "Latex Gloves - Large (Black)", unit := "Box", price := 0,
         description := "Powder-free latex gloves, black, size large.", imageUrl := "/static/images/product-gloves.svg" },
       { subcategory := "Hair Nets", name := "Hair Nets (White)", unit := "Pack", price := 0,
         description := "Breathable disposable hair nets, white.", imageUrl := "/static/images/product-hairnet.svg" },
       { subcategory := "Hair Nets", name := "Hair Nets (Black)", unit := "Pack", price := 0,
         description := "Breathable disposable hair nets, black.", imageUrl := "/static/images/product-hairnet.svg" },
       { subcategory := "Hand Sleeves", name := "Hand Sleeves (White)", unit := "Pack", price := 0,
         description := "Disposable hand sleeves, white.", imageUrl := "/static/images/product-sleeve.svg" },
       { subcategory := "Hand Sleeves", name := "Hand Sleeves (Black)", unit := "Pack", price := 0,
         description := "Disposable hand sleeves, black.", imageUrl := "/static/images/product-sleeve.svg" },
       { subcategory := "Trash Bags", name := "Trash Bags - Small", unit := "Roll", price := 0,
         description := "High-density small trash bags.", imageUrl := "/static/images/product-trash-bag.svg" },
       { subcategory := "Trash Bags", name := "Trash Bags - Medium", unit := "Roll", price := 0,
         description := "High-density medium trash bags.", imageUrl := "/static/images/product-trash-bag.svg" },
       { subcategory := "Trash Bags", name := "Trash Bags - Large", unit := "Roll", price := 0,
         description := "High-density large trash bags.", imageUrl := "/static/images/product-trash-bag.svg" },
       { subcategory := "Trash Bags", name := "Trash Bags - 85cm", unit := "Roll", price := 0,
         description := "Extra-strong trash bags 85cm.", imageUrl := "/static/images/product-trash-bag.svg" },
       { subcategory := "Trash Bags", name := "Trash Bags - 110cm", unit := "Roll", price := 0,
         description := "Extra-strong trash bags 110cm.", imageUrl := "/static/images/product-trash-bag.svg" },
       { subcategory := "Trash Bags", name := "Trash Bags - 125cm", unit := "Roll", price := 0,
         description := "Extra-strong trash bags 125cm.", imageUrl := "/static/images/product-trash-bag.svg" }]
   },
   { slug := "cloths-wipes",
     name := "Microfiber Cloths & Wipes",
     description := "Reusable microfiber cloths and disposable wipes for service stations.",
     imageUrl := "/static/images/category-cloths.svg",
     items := [
       { subcategory := "Microfiber Cloths", name := "Microfiber Color-Coded Cloths", unit := "Pack of 20", price := 0,
         description := "Color-coded cloths for HACCP separation.", imageUrl := "/static/images/product-microfiber.svg" },
       { subcategory := "Wipes", name := "Service Wipes", unit := "Tub of 200", price := 0,
         description := "Disposable wipes for food contact surfaces.", imageUrl := "/static/images/product-wipes.svg" }]
   },
   { slug := "tissues-napkins",
     name := "Tissues & Napkins",
     description := "Interfold napkins, toilet napkins and kitchen rolls stocked for dining rooms.",
     imageUrl := "/static/images/category-tissues.svg",
     items := [
       { subcategory := "Interfold Napkins", name := "Interfold Napkins 2kg", unit := "Pack", price := 0,
         description := "Food-service interfold napkins 2kg.", imageUrl := "/static/images/product-interfold.svg" },
       { subcategory := "Interfold Napkins", name := "Interfold Napkins 3kg", unit := "Pack", price := 0,
         description := "Food-service interfold napkins 3kg.", imageUrl := "/static/images/product-interfold.svg" },
       { subcategory := "Interfold Napkins", name := "Interfold Napkins 4kg", unit := "Pack", price := 0,
         description := "Food-service interfold napkins 4kg.", imageUrl := "/static/images/product-interfold.svg" },
       { subcategory := "Toilet Napkins", name := "Toilet Napkins (6 rolls)", unit := "Pack", price := 0,
         description := "Soft-touch toilet napkins pack of 6 rolls.", imageUrl := "/static/images/product-toilet.svg" },
       { subcategory := "Kitchen Napkins", name := "Kitchen Napkins (6 rolls)", unit := "Pack", price := 0,
         description := "Highly absorbent kitchen napkins pack of 6.", imageUrl := "/static/images/product-kitchen.svg" }]
   }]

/-- The slug set the reconciliation pass compares against
(`target_slugs`). -/
def seedTargetSlugs : List String := catalog_seed.map (fun c => c.slug)

/-- Whether `COUNT(*)` of order items referencing a product of the
category is non-zero (the `referencing` query of `seed_data`). -/
def categoryReferenced (s : DBState) (cid : Int) : Bool :=
  s.orderItems.any (fun oi =>
    s.products.any (fun p => p.id = oi.productId ∧ p.categoryId = cid))

/-- The three cascading `DELETE`s `seed_data` issues for one stale
category (order items referencing its products — none, in the branch that
runs this — then its products, then the category row). -/
def deleteCategory (s : DBState) (cid : Int) : DBState :=
  { s with
    orderItems := s.orderItems.filter (fun oi =>
      !(s.products.any (fun p => p.id = oi.productId ∧ p.categoryId = cid))),
    products := s.products.filter (fun p => p.categoryId ≠ cid),
    categories := s.categories.filter (fun c => c.id ≠ cid) }

/-- The reconciliation loop of `seed_data` (lines 584-611): iterate over a
snapshot of the existing categories; a category whose slug has left the
canonical catalog is deleted together with its products only when no
order item references any of those products. -/
def seedReconcile (s : DBState) : DBState :=
  (s.categories.map (fun c => (c.id, c.slug))).foldl
    (fun acc cs =>
      if cs.2 ∈ seedTargetSlugs then acc
      else if categoryReferenced acc cs.1 then acc
      else deleteCategory acc cs.1) s

/-- Upsert of one seed product into its category (the inner loop of
`seed_data`): update the product matched by `(category_id, name)`, or
insert a new row under a fresh id. -/
def upsertItem (catId : Int) (s : DBState) (it : SeedItem) : DBState :=
  match s.products.find? (fun p => p.categoryId = catId ∧ p.name = it.name) with
  | some p0 =>
    { s with products := s.products.map (fun p =>
        if p.id = p0.id then
          { p with subcategory := it.subcategory, description := some it.description,
                   unit := some it.unit, price := it.price, imageUrl := some it.imageUrl }
        else p) }
  | none =>
    { s with
      products := s.products ++
        [{ id := s.nextProductId, categoryId := catId, subcategory := it.subcategory,
           name := it.name, description := some it.description, unit := some it.unit,
           price := it.price, imageUrl := some it.imageUrl }],
      nextProductId := s.nextProductId + 1 }

/-- Upsert of one seed category and its items (the outer loop of
`seed_data`): update the category matched by slug, or insert a fresh row,
then upsert each of its items. -/
def upsertCategory (s : DBState) (cat : SeedCategory) : DBState :=
  match s.categories.find? (fun c => c.slug = cat.slug) with
  | some c0 =>
    cat.items.foldl (upsertItem c0.id)
      { s with categories := s.categories.map (fun c =>
          if c.id = c0.id then
            { c with name := cat.name, description := some cat.description,
                     imageUrl := some cat.imageUrl }
          else c) }
  | none =>
    cat.items.foldl (upsertItem s.nextCategoryId)
      { s with
        categories := s.categories ++
          [{ id := s.nextCategoryId, slug := cat.slug, name := cat.name,
             description := some cat.description, imageUrl := some cat.imageUrl }],
        nextCategoryId := s.nextCategoryId + 1 }

/-- Embeds `seed_data` (lines 95-687): the reconciliation pass over stale
categories followed by the canonical-catalog upsert pass. -/
def seed_data (s : DBState) : DBState :=
  catalog_seed.foldl upsertCategory (seedReconcile s)

/-- Whether the reconciliation pass deletes a category: its slug is
outside the canonical catalog and no order item references its
products. -/
def staleCat (s : DBState) (c : CategoryRow) : Bool :=
  !(decide (c.slug ∈ seedTargetSlugs)) && !(categoryReferenced s c.id)

/-- The ids of the categories a run of the reconciliation loop deletes. -/
def delIds (s : DBState) (cats : List CategoryRow) : List Int :=
  (cats.filter (staleCat s)).map (fun c => c.id)

/-- The cumulative effect of the reconciliation deletions: drop the listed
categories and their products (no order item row is ever touched — the
deleting branch only runs when none references the category). -/
def applyDeletes (s : DBState) (dels : List Int) : DBState :=
  { s with
    categories := s.categories.filter (fun c => c.id ∉ dels),
    products := s.products.filter (fun p => p.categoryId ∉ dels) }

theorem applyDeletes_nil (s : DBState) : applyDeletes s [] = s := by
  have h1 : s.categories.filter (fun c => c.id ∉ ([] : List Int)) = s.categories :=
    List.filter_eq_self.mpr (by intro a _; simp)
  have h2 : s.products.filter (fun p => p.categoryId ∉ ([] : List Int)) = s.products :=
    List.filter_eq_self.mpr (by intro a _; simp)
  rw [applyDeletes, h1, h2]

theorem delIds_append (s : DBState) (l₁ l₂ : List CategoryRow) :
    delIds s (l₁ ++ l₂) = delIds s l₁ ++ delIds s l₂ := by
  rw [delIds, List.filter_append, List.map_append]
  rfl

/-- The reference count of a surviving category is unaffected by earlier
deletions: its products all survive and order items are untouched. -/
theorem categoryReferenced_applyDeletes {s : DBState} {dels : List Int} {cid : Int}
    (h : cid ∉ dels) :
    categoryReferenced (applyDeletes s dels) cid = categoryReferenced s cid := by
  rw [Bool.eq_iff_iff]
  simp only [categoryReferenced, applyDeletes, List.any_eq_true, List.mem_filter,
    decide_eq_true_eq]
  constructor
  · rintro ⟨oi, hoi, p, ⟨hp, -⟩, hpe⟩
    exact ⟨oi, hoi, p, hp, hpe⟩
  · rintro ⟨oi, hoi, p, hp, hpe⟩
    refine ⟨oi, hoi, p, ⟨hp, ?_⟩, hpe⟩
    rw [hpe.2]
    simpa using h

theorem deleteCategory_applyDeletes {s : DBState} {dels : List Int} {cid : Int}
    (href : categoryReferenced (applyDeletes s dels) cid = false) :
    deleteCategory (applyDeletes s dels) cid = applyDeletes s (dels ++ [cid]) := by
  have hitems : ((applyDeletes s dels).orderItems).filter (fun oi =>
      !((applyDeletes s dels).products.any
        (fun p => p.id = oi.productId ∧ p.categoryId = cid))) =
      (applyDeletes s dels).orderItems := by
    apply List.filter_eq_self.mpr
    intro oi hoi
    rw [Bool.not_eq_true']
    exact Bool.eq_false_iff.mpr (List.any_eq_false.mp href oi hoi)
  have hprods : ((applyDeletes s dels).products).filter (fun p => p.categoryId ≠ cid) =
      s.products.filter (fun p => p.categoryId ∉ dels ++ [cid]) := by
    rw [applyDeletes, List.filter_filter]
    apply List.filter_congr
    intro p _
    by_cases h1 : p.categoryId ∈ dels <;> by_cases h2 : p.categoryId = cid <;>
      simp [h1, h2, List.mem_append]
  have hcats : ((applyDeletes s dels).categories).filter (fun c => c.id ≠ cid) =
      s.categories.filter (fun c => c.id ∉ dels ++ [cid]) := by
    rw [applyDeletes, List.filter_filter]
    apply List.filter_congr
    intro c _
    by_cases h1 : c.id ∈ dels <;> by_cases h2 : c.id = cid <;>
      simp [h1, h2, List.mem_append]
  rw [deleteCategory, hitems, hprods, hcats]
  rfl

theorem seedReconcile_go (s : DBState)
    (hnd : (s.categories.map (fun c => c.id)).Nodup) :
    ∀ (post pre : List CategoryRow), s.categories = pre ++ post →
      (post.map (fun c => (c.id, c.slug))).foldl
          (fun acc cs =>
            if cs.2 ∈ seedTargetSlugs then acc
            else if categoryReferenced acc cs.1 then acc
            else deleteCategory acc cs.1)
          (applyDeletes s (delIds s pre)) =
        applyDeletes s (delIds s (pre ++ post)) := by
  intro post
  induction post with
  | nil =>
    intro pre hsplit
    simp
  | cons c post' ih =>
    intro pre hsplit
    have hcnotpre : c.id ∉ delIds s pre := by
      intro hmem
      have h1 : c.id ∈ pre.map (fun c => c.id) := by
        rcases List.mem_map.mp hmem with ⟨d, hd, hde⟩
        rw [← hde]
        exact List.mem_map_of_mem _ (List.mem_of_mem_filter hd)
      have h2 : c.id ∈ (c :: post').map (fun c => c.id) := List.mem_map_of_mem _ (List.mem_cons_self ..)
      rw [hsplit, List.map_append] at hnd
      exact (List.nodup_append.mp hnd).2.2 h1 h2
    rw [List.map_cons, List.foldl_cons]
    by_cases hslug : c.slug ∈ seedTargetSlugs
    · rw [if_pos hslug]
      have hstale : staleCat s c = false := by
        rw [staleCat]
        simp [hslug]
      have hdel : delIds s (pre ++ [c]) = delIds s pre := by
        rw [delIds_append]
        have : delIds s [c] = [] := by
          rw [delIds, List.filter_cons]
          simp [hstale]
        rw [this, List.append_nil]
      have := ih (pre ++ [c]) (by rw [hsplit, List.append_assoc]; rfl)
      rw [hdel] at this
      rw [this, List.append_assoc]
      rfl
    · rw [if_neg hslug]
      have href : categoryReferenced (applyDeletes s (delIds s pre)) c.id =
          categoryReferenced s c.id := categoryReferenced_applyDeletes hcnotpre
      by_cases hr : categoryReferenced s c.id = true
      · rw [if_pos (by rw [href, hr])]
        have hstale : staleCat s c = false := by
          rw [staleCat, hr]
          simp
        have hdel : delIds s (pre ++ [c]) = delIds s pre := by
          rw [delIds_append]
          have : delIds s [c] = [] := by
            rw [delIds, List.filter_cons]
            simp [hstale]
          rw [this, List.append_nil]
        have := ih (pre ++ [c]) (by rw [hsplit, List.append_assoc]; rfl)
        rw [hdel] at this
        rw [this, List.append_assoc]
        rfl
      · have hr' : categoryReferenced s c.id = false := by
          cases h : categoryReferenced s c.id
          · rfl
          · exact absurd h hr
        rw [if_neg (by rw [href, hr']; exact Bool.false_ne_true)]
        have hstale : staleCat s c = true := by
          rw [staleCat, hr']
          simp [hslug]
        have hdel : delIds s (pre ++ [c]) = delIds s pre ++ [c.id] := by
          rw [delIds_append]
          have : delIds s [c] = [c.id] := by
            rw [delIds, List.filter_cons]
            simp [hstale]
          rw [this]
        rw [deleteCategory_applyDeletes (by rw [href]; exact hr')]
        have := ih (pre ++ [c]) (by rw [hsplit, List.append_assoc]; rfl)
        rw [hdel] at this
        rw [this, List.append_assoc]
        rfl

/-- The reconciliation pass, characterised: it removes exactly the stale
categories and their products and touches nothing else. -/
theorem seedReconcile_eq {s : DBState}
    (hnd : (s.categories.map (fun c => c.id)).Nodup) :
    seedReconcile s = applyDeletes s (delIds s s.categories) := by
  have h := seedReconcile_go s hnd s.categories [] rfl
  rw [seedReconcile]
  have hpre : delIds s ([] : List CategoryRow) = [] := rfl
  rw [hpre, applyDeletes_nil] at h
  simpa using h

/-! ### The upsert pass: preservation lemmas -/

/-- The schema invariants the upsert pass maintains. -/
def WFu (s : DBState) : Prop :=
  (s.categories.map (fun c => c.id)).Nodup ∧
  (s.categories.map (fun c => c.slug)).Nodup ∧
  (∀ c ∈ s.categories, c.id < s.nextCategoryId) ∧
  (s.products.map (fun p => p.id)).Nodup ∧
  (∀ p ∈ s.products, p.id < s.nextProductId)

theorem upsertItem_fixed (catId : Int) (s : DBState) (it : SeedItem) :
    (upsertItem catId s it).orders = s.orders ∧
    (upsertItem catId s it).orderItems = s.orderItems ∧
    (upsertItem catId s it).categories = s.categories ∧
    (upsertItem catId s it).nextCategoryId = s.nextCategoryId := by
  rw [upsertItem.eq_def]
  cases s.products.find? (fun p => p.categoryId = catId ∧ p.name = it.name) <;>
    exact ⟨rfl, rfl, rfl, rfl⟩

theorem upsertItem_WFu {s : DBState} (catId : Int) (it : SeedItem) (h : WFu s) :
    WFu (upsertItem catId s it) := by
  obtain ⟨h1, h2, h3, h4, h5⟩ := h
  rw [upsertItem.eq_def]
  cases hf : s.products.find? (fun p => p.categoryId = catId ∧ p.name = it.name) with
  | some p0 =>
    refine ⟨h1, h2, h3, ?_, ?_⟩
    · have hid : (s.products.map (fun p =>
          if p.id = p0.id then
            { p with subcategory := it.subcategory, description := some it.description,
                     unit := some it.unit, price := it.price,
                     imageUrl := some it.imageUrl }
          else p)).map (fun p => p.id) = s.products.map (fun p => p.id) := by
        rw [List.map_map]
        apply List.map_congr_left
        intro p _
        by_cases hp : p.id = p0.id <;> simp [hp]
      exact hid ▸ h4
    · intro p hp
      rcases List.mem_map.mp hp with ⟨q, hq, rfl⟩
      have : (if q.id = p0.id then
          { q with subcategory := it.subcategory, description := some it.description,
                   unit := some it.unit, price := it.price,
                   imageUrl := some it.imageUrl }
        else q).id = q.id := by
        split <;> rfl
      rw [this]
      exact h5 q hq
  | none =>
    dsimp only
    refine ⟨h1, h2, h3, ?_, ?_⟩
    · rw [List.map_append, List.nodup_append]
      refine ⟨h4, by simp, ?_⟩
      intro a ha hb
      rcases List.mem_map.mp ha with ⟨q, hq, rfl⟩
      have := h5 q hq
      simp only [List.map_cons, List.map_nil, List.mem_singleton] at hb
      omega
    · intro p hp
      rcases List.mem_append.mp hp with h' | h'
      · have := h5 p h'
        dsimp only
        omega
      · rcases List.mem_singleton.mp h' with rfl
        simp

theorem itemsFold_fixed (catId : Int) :
    ∀ (its : List SeedItem) (s : DBState),
      ((its.foldl (upsertItem catId) s).orders = s.orders ∧
       (its.foldl (upsertItem catId) s).orderItems = s.orderItems ∧
       (its.foldl (upsertItem catId) s).categories = s.categories ∧
       (its.foldl (upsertItem catId) s).nextCategoryId = s.nextCategoryId) := by
  intro its
  induction its with
  | nil => intro s; exact ⟨rfl, rfl, rfl, rfl⟩
  | cons it rest ih =>
    intro s
    rw [List.foldl_cons]
    obtain ⟨i1, i2, i3, i4⟩ := ih (upsertItem catId s it)
    obtain ⟨u1, u2, u3, u4⟩ := upsertItem_fixed catId s it
    exact ⟨i1.trans u1, i2.trans u2, i3.trans u3, i4.trans u4⟩

theorem itemsFold_WFu (catId : Int) :
    ∀ (its : List SeedItem) {s : DBState}, WFu s →
      WFu (its.foldl (upsertItem catId) s) := by
  intro its
  induction its with
  | nil => intro s h; exact h
  | cons it rest ih =>
    intro s h
    rw [List.foldl_cons]
    exact ih (upsertItem_WFu catId it h)

theorem upsertItem_keep_prod {catId : Int} {s : DBState} {p : ProductRow} (it : SeedItem)
    (h4 : (s.products.map (fun p => p.id)).Nodup)
    (hp : p ∈ s.products) (hcat : p.categoryId ≠ catId) :
    p ∈ (upsertItem catId s it).products := by
  rw [upsertItem.eq_def]
  cases hf : s.products.find? (fun p => p.categoryId = catId ∧ p.name = it.name) with
  | none => exact List.mem_append_left _ hp
  | some p0 =>
    have hp0 := List.find?_some hf
    rw [decide_eq_true_eq] at hp0
    have hp0mem := List.mem_of_find?_eq_some hf
    have hne : p.id ≠ p0.id := by
      intro he
      have heq : p = p0 := List.inj_on_of_nodup_map h4 hp hp0mem he
      rw [heq] at hcat
      exact hcat hp0.1
    refine List.mem_map.mpr ⟨p, hp, ?_⟩
    rw [if_neg hne]

theorem itemsFold_keep (catId : Int) :
    ∀ (its : List SeedItem) {s : DBState}, WFu s →
      ∀ {p : ProductRow}, p ∈ s.products → p.categoryId ≠ catId →
      p ∈ (its.foldl (upsertItem catId) s).products := by
  intro its
  induction its with
  | nil => intro s _ p hp _; exact hp
  | cons it rest ih =>
    intro s hW p hp hcat
    rw [List.foldl_cons]
    exact ih (upsertItem_WFu catId it hW)
      (upsertItem_keep_prod it hW.2.2.2.1 hp hcat) hcat

theorem upsertItem_no_cat {catId X : Int} {s : DBState} (it : SeedItem) (hne : catId ≠ X)
    (h : ∀ q ∈ s.products, q.categoryId ≠ X) :
    ∀ q ∈ (upsertItem catId s it).products, q.categoryId ≠ X := by
  rw [upsertItem.eq_def]
  cases hf : s.products.find? (fun p => p.categoryId = catId ∧ p.name = it.name) with
  | some p0 =>
    intro q hq
    rcases List.mem_map.mp hq with ⟨q0, hq0, rfl⟩
    have hcid : (if q0.id = p0.id then
        { q0 with subcategory := it.subcategory, description := some it.description,
                  unit := some it.unit, price := it.price,
                  imageUrl := some it.imageUrl }
      else q0).categoryId = q0.categoryId := by
      split <;> rfl
    rw [hcid]
    exact h q0 hq0
  | none =>
    intro q hq
    rcases List.mem_append.mp hq with h' | h'
    · exact h q h'
    · rcases List.mem_singleton.mp h' with rfl
      simpa using hne

theorem itemsFold_no_cat {catId X : Int} (hne : catId ≠ X) :
    ∀ (its : List SeedItem) {s : DBState},
      (∀ q ∈ s.products, q.categoryId ≠ X) →
      ∀ q ∈ (its.foldl (upsertItem catId) s).products, q.categoryId ≠ X := by
  intro its
  induction its with
  | nil => intro s h; exact h
  | cons it rest ih =>
    intro s h
    rw [List.foldl_cons]
    exact ih (upsertItem_no_cat it hne h)

theorem upsertCategory_fixed (s : DBState) (cat : SeedCategory) :
    (upsertCategory s cat).orders = s.orders ∧
    (upsertCategory s cat).orderItems = s.orderItems := by
  rw [upsertCategory.eq_def]
  cases hf : s.categories.find? (fun c => c.slug = cat.slug) with
  | some c0 =>
    obtain ⟨i1, i2, -, -⟩ := itemsFold_fixed c0.id cat.items _
    exact ⟨i1, i2⟩
  | none =>
    obtain ⟨i1, i2, -, -⟩ := itemsFold_fixed s.nextCategoryId cat.items _
    exact ⟨i1, i2⟩

/-- The category-row update of `upsertCategory`'s matched branch. -/
def updateCatRows (s : DBState) (cat : SeedCategory) (cid : Int) : DBState :=
  { s with categories := s.categories.map (fun c =>
      if c.id = cid then
        { c with name := cat.name, description := some cat.description,
                 imageUrl := some cat.imageUrl }
      else c) }

/-- The category-row insert of `upsertCategory`'s unmatched branch. -/
def insertCatRow (s : DBState) (cat : SeedCategory) : DBState :=
  { s with
    categories := s.categories ++
      [{ id := s.nextCategoryId, slug := cat.slug, name := cat.name,
         description := some cat.description, imageUrl := some cat.imageUrl }],
    nextCategoryId := s.nextCategoryId + 1 }

theorem upsertCategory_eq (s : DBState) (cat : SeedCategory) :
    upsertCategory s cat =
      match s.categories.find? (fun c => c.slug = cat.slug) with
      | some c0 => cat.items.foldl (upsertItem c0.id) (updateCatRows s cat c0.id)
      | none => cat.items.foldl (upsertItem s.nextCategoryId) (insertCatRow s cat) := by
  rw [upsertCategory.eq_def]
  cases s.categories.find? (fun c => c.slug = cat.slug) <;> rfl

theorem updateCatRows_WFu {s : DBState} (cat : SeedCategory) (cid : Int) (h : WFu s) :
    WFu (updateCatRows s cat cid) := by
  obtain ⟨h1, h2, h3, h4, h5⟩ := h
  have hid : ((updateCatRows s cat cid).categories).map (fun c => c.id) =
      s.categories.map (fun c => c.id) := by
    rw [updateCatRows, List.map_map]
    apply List.map_congr_left
    intro c _
    by_cases hc : c.id = cid <;> simp [hc]
  have hslug : ((updateCatRows s cat cid).categories).map (fun c => c.slug) =
      s.categories.map (fun c => c.slug) := by
    rw [updateCatRows, List.map_map]
    apply List.map_congr_left
    intro c _
    by_cases hc : c.id = cid <;> simp [hc]
  refine ⟨hid ▸ h1, hslug ▸ h2, ?_, h4, h5⟩
  intro c hc
  rcases List.mem_map.mp hc with ⟨d, hd, rfl⟩
  have he : (if d.id = cid then
      { d with name := cat.name, description := some cat.description,
               imageUrl := some cat.imageUrl }
    else d).id = d.id := by
    split <;> rfl
  rw [he]
  exact h3 d hd

theorem insertCatRow_WFu {s : DBState} (cat : SeedCategory) (h : WFu s)
    (hnew : ∀ d ∈ s.categories, d.slug ≠ cat.slug) :
    WFu (insertCatRow s cat) := by
  obtain ⟨h1, h2, h3, h4, h5⟩ := h
  rw [insertCatRow]
  refine ⟨?_, ?_, ?_, h4, h5⟩
  · rw [List.map_append, List.nodup_append]
    refine ⟨h1, by simp, ?_⟩
    intro a ha hb
    rcases List.mem_map.mp ha with ⟨d, hd, rfl⟩
    have := h3 d hd
    simp only [List.map_cons, List.map_nil, List.mem_singleton] at hb
    omega
  · rw [List.map_append, List.nodup_append]
    refine ⟨h2, by simp, ?_⟩
    intro a ha hb
    rcases List.mem_map.mp ha with ⟨d, hd, rfl⟩
    simp only [List.map_cons, List.map_nil, List.mem_singleton] at hb
    exact hnew d hd hb
  · intro c hc
    rcases List.mem_append.mp hc with h' | h'
    · have := h3 c h'
      dsimp only
      omega
    · rcases List.mem_singleton.mp h' with rfl
      simp

theorem upsertCategory_WFu {s : DBState} (cat : SeedCategory) (h : WFu s) :
    WFu (upsertCategory s cat) := by
  rw [upsertCategory_eq]
  cases hf : s.categories.find? (fun c => c.slug = cat.slug) with
  | some c0 => exact itemsFold_WFu c0.id cat.items (updateCatRows_WFu cat c0.id h)
  | none =>
    have hnew : ∀ d ∈ s.categories, d.slug ≠ cat.slug := by
      intro d hd
      have := List.find?_eq_none.mp hf d hd
      simpa using this
    exact itemsFold_WFu s.nextCategoryId cat.items (insertCatRow_WFu cat h hnew)

theorem upsertCategory_keep {s : DBState} {cat : SeedCategory} {c : CategoryRow}
    (hW : WFu s) (hc : c ∈ s.categories) (hslug : c.slug ≠ cat.slug) :
    c ∈ (upsertCategory s cat).categories ∧
    ∀ p ∈ s.products, p.categoryId = c.id → p ∈ (upsertCategory s cat).products := by
  rw [upsertCategory_eq]
  cases hf : s.categories.find? (fun c => c.slug = cat.slug) with
  | some c0 =>
    have hc0p := List.find?_some hf
    rw [decide_eq_true_eq] at hc0p
    have hc0mem := List.mem_of_find?_eq_some hf
    have hneid : c.id ≠ c0.id := by
      intro he
      have : c = c0 := List.inj_on_of_nodup_map hW.1 hc hc0mem he
      rw [this, hc0p] at hslug
      exact hslug rfl
    have hWs1 : WFu (updateCatRows s cat c0.id) := updateCatRows_WFu cat c0.id hW
    constructor
    · rw [(itemsFold_fixed c0.id cat.items _).2.2.1]
      rw [updateCatRows]
      refine List.mem_map.mpr ⟨c, hc, ?_⟩
      rw [if_neg hneid]
    · intro p hp hpcat
      have hcat : p.categoryId ≠ c0.id := by
        rw [hpcat]
        exact hneid
      have hp1 : p ∈ (updateCatRows s cat c0.id).products := hp
      exact itemsFold_keep c0.id cat.items hWs1 hp1 hcat
  | none =>
    have hnew : ∀ d ∈ s.categories, d.slug ≠ cat.slug := by
      intro d hd
      have := List.find?_eq_none.mp hf d hd
      simpa using this
    have hWs1 : WFu (insertCatRow s cat) := insertCatRow_WFu cat hW hnew
    constructor
    · rw [(itemsFold_fixed s.nextCategoryId cat.items _).2.2.1]
      rw [insertCatRow]
      exact List.mem_append_left _ hc
    · intro p hp hpcat
      have hcat : p.categoryId ≠ s.nextCategoryId := by
        rw [hpcat]
        have := hW.2.2.1 c hc
        omega
      have hp1 : p ∈ (insertCatRow s cat).products := hp
      exact itemsFold_keep s.nextCategoryId cat.items hWs1 hp1 hcat

theorem upsertCategory_avoid {s : DBState} {cat : SeedCategory} {cslug : String} {cid : Int}
    (hcatm : cat.slug ∈ seedTargetSlugs) (hX : cslug ∉ seedTargetSlugs)
    (h1 : ∀ d ∈ s.categories, d.slug ≠ cslug)
    (h2 : ∀ d ∈ s.categories, d.id ≠ cid)
    (h3 : cid < s.nextCategoryId)
    (h4 : ∀ q ∈ s.products, q.categoryId ≠ cid) :
    (∀ d ∈ (upsertCategory s cat).categories, d.slug ≠ cslug) ∧
    (∀ d ∈ (upsertCategory s cat).categories, d.id ≠ cid) ∧
    (cid < (upsertCategory s cat).nextCategoryId) ∧
    (∀ q ∈ (upsertCategory s cat).products, q.categoryId ≠ cid) := by
  rw [upsertCategory_eq]
  cases hf : s.categories.find? (fun c => c.slug = cat.slug) with
  | some c0 =>
    have hc0mem := List.mem_of_find?_eq_some hf
    have hcne : c0.id ≠ cid := h2 c0 hc0mem
    obtain ⟨-, -, hcats, hnext⟩ := itemsFold_fixed c0.id cat.items (updateCatRows s cat c0.id)
    refine ⟨?_, ?_, ?_, ?_⟩
    · intro d hd
      rw [hcats, updateCatRows] at hd
      rcases List.mem_map.mp hd with ⟨d0, hd0, rfl⟩
      have : (if d0.id = c0.id then
          { d0 with name := cat.name, description := some cat.description,
                    imageUrl := some cat.imageUrl }
        else d0).slug = d0.slug := by
        split <;> rfl
      rw [this]
      exact h1 d0 hd0
    · intro d hd
      rw [hcats, updateCatRows] at hd
      rcases List.mem_map.mp hd with ⟨d0, hd0, rfl⟩
      have : (if d0.id = c0.id then
          { d0 with name := cat.name, description := some cat.description,
                    imageUrl := some cat.imageUrl }
        else d0).id = d0.id := by
        split <;> rfl
      rw [this]
      exact h2 d0 hd0
    · rw [hnext, updateCatRows]
      exact h3
    · exact itemsFold_no_cat hcne cat.items h4
  | none =>
    obtain ⟨-, -, hcats, hnext⟩ := itemsFold_fixed s.nextCategoryId cat.items (insertCatRow s cat)
    have hfresh : s.nextCategoryId ≠ cid := by omega
    refine ⟨?_, ?_, ?_, ?_⟩
    · intro d hd
      rw [hcats, insertCatRow] at hd
      rcases List.mem_append.mp hd with h' | h'
      · exact h1 d h'
      · rcases List.mem_singleton.mp h' with rfl
        intro he
        apply hX
        rw [← he]
        exact hcatm
    · intro d hd
      rw [hcats, insertCatRow] at hd
      rcases List.mem_append.mp hd with h' | h'
      · exact h2 d h'
      · rcases List.mem_singleton.mp h' with rfl
        simpa using hfresh
    · rw [hnext, insertCatRow]
      dsimp only
      omega
    · exact itemsFold_no_cat hfresh cat.items h4

theorem seedFold_fixed :
    ∀ (cats : List SeedCategory) (s : DBState),
      (cats.foldl upsertCategory s).orders = s.orders ∧
      (cats.foldl upsertCategory s).orderItems = s.orderItems := by
  intro cats
  induction cats with
  | nil => intro s; exact ⟨rfl, rfl⟩
  | cons cat rest ih =>
    intro s
    rw [List.foldl_cons]
    obtain ⟨i1, i2⟩ := ih (upsertCategory s cat)
    obtain ⟨u1, u2⟩ := upsertCategory_fixed s cat
    exact ⟨i1.trans u1, i2.trans u2⟩

theorem seedFold_keep :
    ∀ (cats : List SeedCategory) {s : DBState} {c : CategoryRow},
      WFu s → c ∈ s.categories → (∀ cat ∈ cats, c.slug ≠ cat.slug) →
      ∀ {ps : List ProductRow},
        (∀ p ∈ ps, p ∈ s.products ∧ p.categoryId = c.id) →
      c ∈ (cats.foldl upsertCategory s).categories ∧
      ∀ p ∈ ps, p ∈ (cats.foldl upsertCategory s).products := by
  intro cats
  induction cats with
  | nil =>
    intro s c _ hc _ ps hps
    exact ⟨hc, fun p hp => (hps p hp).1⟩
  | cons cat rest ih =>
    intro s c hW hc hslug ps hps
    rw [List.foldl_cons]
    obtain ⟨k1, k2⟩ := upsertCategory_keep hW hc (hslug cat (List.mem_cons_self ..))
    refine ih (upsertCategory_WFu cat hW) k1
      (fun cat' h' => hslug cat' (List.mem_cons_of_mem _ h')) ?_
    intro p hp
    exact ⟨k2 p (hps p hp).1 (hps p hp).2, (hps p hp).2⟩

theorem seedFold_avoid :
    ∀ (cats : List SeedCategory) {s : DBState} {cslug : String} {cid : Int},
      (∀ cat ∈ cats, cat.slug ∈ seedTargetSlugs) → cslug ∉ seedTargetSlugs →
      (∀ d ∈ s.categories, d.slug ≠ cslug) →
      (∀ d ∈ s.categories, d.id ≠ cid) →
      cid < s.nextCategoryId →
      (∀ q ∈ s.products, q.categoryId ≠ cid) →
      (∀ d ∈ (cats.foldl upsertCategory s).categories, d.slug ≠ cslug) ∧
      (∀ q ∈ (cats.foldl upsertCategory s).products, q.categoryId ≠ cid) := by
  intro cats
  induction cats with
  | nil => intro s cslug cid _ _ h1 _ _ h4; exact ⟨h1, h4⟩
  | cons cat rest ih =>
    intro s cslug cid hsub hX h1 h2 h3 h4
    rw [List.foldl_cons]
    obtain ⟨a1, a2, a3, a4⟩ :=
      upsertCategory_avoid (hsub cat (List.mem_cons_self ..)) hX h1 h2 h3 h4
    exact ih (fun cat' h' => hsub cat' (List.mem_cons_of_mem _ h')) hX a1 a2 a3 a4

/-- The reconciliation pass never touches the `orders` table. -/
theorem seedReconcile_orders (s : DBState) :
    (seedReconcile s).orders = s.orders := by
  rw [seedReconcile]
  have hgen : ∀ (l : List (Int × String)) (acc : DBState),
      (l.foldl (fun acc cs =>
          if cs.2 ∈ seedTargetSlugs then acc
          else if categoryReferenced acc cs.1 then acc
          else deleteCategory acc cs.1) acc).orders = acc.orders := by
    intro l
    induction l with
    | nil => intro acc; rfl
    | cons cs rest ih =>
      intro acc
      rw [List.foldl_cons]
      by_cases h1 : cs.2 ∈ seedTargetSlugs
      · rw [if_pos h1]
        exact ih acc
      · rw [if_neg h1]
        by_cases h2 : categoryReferenced acc cs.1 = true
        · rw [if_pos h2]
          exact ih acc
        · rw [if_neg h2]
          exact ih (deleteCategory acc cs.1)
  exact hgen _ s

/-- `seed_data` never touches the `orders` table. -/
theorem seed_data_orders (s : DBState) : (seed_data s).orders = s.orders := by
  rw [seed_data, (seedFold_fixed catalog_seed (seedReconcile s)).1]
  exact seedReconcile_orders s

/-- **C5**: for every well-formed database state and every category whose
slug is not in the canonical seed catalog, `seed_data` deletes that
category together with its products iff no `order_items` row references
any product of that category; otherwise the category and its products are
left in place — and `seed_data` never deletes an `order_items` row at all,
so no category or product referenced by an order item is ever deleted by
reconciliation. -/
theorem claim_C5 (s : DBState) (hwf : WF s) (c : CategoryRow)
    (hc : c ∈ s.categories) (hslug : c.slug ∉ seedTargetSlugs) :
    (seed_data s).orderItems = s.orderItems ∧
    (categoryReferenced s c.id = false →
      c ∉ (seed_data s).categories ∧
      ∀ p ∈ s.products, p.categoryId = c.id → p ∉ (seed_data s).products) ∧
    (categoryReferenced s c.id = true →
      c ∈ (seed_data s).categories ∧
      ∀ p ∈ s.products, p.categoryId = c.id → p ∈ (seed_data s).products) := by
  obtain ⟨h1, h2, h3, -, h5, h6, -, -⟩ := hwf
  have hsd : seed_data s = catalog_seed.foldl upsertCategory
      (applyDeletes s (delIds s s.categories)) := by
    rw [seed_data, seedReconcile_eq h1]
  set D := delIds s s.categories with hD
  set r := applyDeletes s D with hrdef
  have hWr : WFu r := by
    rw [hrdef, applyDeletes]
    refine ⟨?_, ?_, ?_, ?_, ?_⟩
    · exact h1.sublist ((List.filter_sublist _).map _)
    · exact h2.sublist ((List.filter_sublist _).map _)
    · intro d hd
      exact h5 d (List.mem_of_mem_filter hd)
    · exact h3.sublist ((List.filter_sublist _).map _)
    · intro p hp
      exact h6 p (List.mem_of_mem_filter hp)
  have hitems : (seed_data s).orderItems = s.orderItems := by
    rw [hsd, (seedFold_fixed _ _).2]
    rfl
  refine ⟨hitems, ?_, ?_⟩
  · intro href
    have hstale : staleCat s c = true := by
      rw [staleCat, href]
      simp [hslug]
    have hcidD : c.id ∈ D := by
      rw [hD, delIds]
      exact List.mem_map_of_mem _ (List.mem_filter.mpr ⟨hc, hstale⟩)
    have a1 : ∀ d ∈ r.categories, d.slug ≠ c.slug := by
      intro d hd he
      rw [hrdef, applyDeletes] at hd
      rcases List.mem_filter.mp hd with ⟨hdm, hdid⟩
      have hdc : d = c := List.inj_on_of_nodup_map h2 hdm hc he
      rw [hdc] at hdid
      simp only [decide_eq_true_eq] at hdid
      exact hdid hcidD
    have a2 : ∀ d ∈ r.categories, d.id ≠ c.id := by
      intro d hd he
      rw [hrdef, applyDeletes] at hd
      rcases List.mem_filter.mp hd with ⟨-, hdid⟩
      simp only [decide_eq_true_eq] at hdid
      exact hdid (he ▸ hcidD)
    have a3 : c.id < r.nextCategoryId := h5 c hc
    have a4 : ∀ q ∈ r.products, q.categoryId ≠ c.id := by
      intro q hq he
      rw [hrdef, applyDeletes] at hq
      rcases List.mem_filter.mp hq with ⟨-, hqid⟩
      simp only [decide_eq_true_eq] at hqid
      exact hqid (he ▸ hcidD)
    obtain ⟨f1, f2⟩ := seedFold_avoid catalog_seed
      (fun cat hm => List.mem_map_of_mem _ hm) hslug a1 a2 a3 a4
    constructor
    · intro hmem
      rw [hsd] at hmem
      exact f1 c hmem rfl
    · intro p hp hpcat hmem
      rw [hsd] at hmem
      exact f2 p hmem hpcat
  · intro href
    have hstale : staleCat s c = false := by
      rw [staleCat, href]
      simp
    have hcidD : c.id ∉ D := by
      intro hmem
      rw [hD, delIds] at hmem
      rcases List.mem_map.mp hmem with ⟨d, hdf, hde⟩
      rcases List.mem_filter.mp hdf with ⟨hdm, hds⟩
      have hdc : d = c := List.inj_on_of_nodup_map h1 hdm hc hde
      rw [hdc] at hds
      rw [hstale] at hds
      cases hds
    have hcr : c ∈ r.categories := by
      rw [hrdef, applyDeletes]
      exact List.mem_filter.mpr ⟨hc, by simpa using hcidD⟩
    have hseedslug : ∀ cat ∈ catalog_seed, c.slug ≠ cat.slug := by
      intro cat hm he
      exact hslug (he ▸ List.mem_map_of_mem _ hm)
    have hps : ∀ p ∈ s.products.filter (fun p => p.categoryId = c.id),
        p ∈ r.products ∧ p.categoryId = c.id := by
      intro p hp
      rcases List.mem_filter.mp hp with ⟨hpm, hpc⟩
      rw [decide_eq_true_eq] at hpc
      refine ⟨?_, hpc⟩
      rw [hrdef, applyDeletes]
      refine List.mem_filter.mpr ⟨hpm, ?_⟩
      rw [hpc]
      simpa using hcidD
    obtain ⟨k1, k2⟩ := seedFold_keep catalog_seed hWr hcr hseedslug hps
    constructor
    · rw [hsd]
      exact k1
    · intro p hp hpcat
      rw [hsd]
      exact k2 p (List.mem_filter.mpr ⟨hp, by simpa using hpcat⟩)

/-- A legacy category whose slug has left the canonical catalog. -/
def legacyCat : CategoryRow :=
  { id := 1, slug := "legacy-stock", name := "Legacy Stock",
    description := none, imageUrl := none }

/-- A state where `legacyCat`'s only product is referenced by an order
item. -/
def sC5 : DBState :=
  { categories := [legacyCat],
    products := [{ id := 1, categoryId := 1, subcategory := "Old", name := "Old Product",
                   description := none, unit := none, price := 4, imageUrl := none }],
    orders := [{ id := 1, customerName := "n", email := "e@x", phone := "123456",
                 address := "a", status := "received", verificationCode := "",
                 createdAt := "t" }],
    orderItems := [{ id := 1, orderId := 1, productId := 1, quantity := 2 }],
    nextCategoryId := 2, nextProductId := 2, nextOrderId := 2, nextOrderItemId := 2 }

/-- Witness for C5: the referenced legacy category of `sC5` survives
`seed_data`, and no order item is lost. -/
theorem claim_C5_witness :
    (seed_data sC5).orderItems = sC5.orderItems ∧
    legacyCat ∈ (seed_data sC5).categories :=
  ⟨(claim_C5 sC5 (by decide) legacyCat (by decide) (by decide)).1,
   ((claim_C5 sC5 (by decide) legacyCat (by decide) (by decide)).2.2 (by decide)).1⟩

/-! ## C9: order status is always "received" -/

/-- Embeds `_apply_migrations` (database.py lines 82-92) on the typed
state: the `image_url` column addition and the price `COALESCE` are
no-ops here (the column exists and prices are non-null by type); the
status migration rewrites legacy `pending_verification` rows to
`received`. -/
def apply_migrations (s : DBState) : DBState :=
  { s with orders := s.orders.map (fun o =>
      if o.status = "pending_verification" then { o with status := "received" } else o) }

/-- Embeds `init_db` (lines 35-79): `CREATE TABLE IF NOT EXISTS` leaves an
already-created typed state unchanged, then the migrations run. -/
def init_db (s : DBState) : DBState := apply_migrations s

/-- The empty database of a fresh deployment. -/
def emptyState : DBState :=
  { categories := [], products := [], orders := [], orderItems := [],
    nextCategoryId := 1, nextProductId := 1, nextOrderId := 1, nextOrderItemId := 1 }

/-- The states reachable through the operations the claim names: a fresh
database; a legacy database whose order statuses are at worst
`pending_verification`, passed through startup `init_db`; and closure
under `init_db`, `seed_data` and successful `create_order` calls.  The
read operations (`get_catalog`, `get_order_summary`) are pure in this
embedding and need no step. -/
inductive Reachable : DBState → Prop where
  | empty : Reachable emptyState
  | legacyInit (s : DBState)
      (h : ∀ o ∈ s.orders, o.status = "received" ∨ o.status = "pending_verification") :
      Reachable (init_db s)
  | initStep {s : DBState} : Reachable s → Reachable (init_db s)
  | seedStep {s : DBState} : Reachable s → Reachable (seed_data s)
  | createStep {s s' : DBState} {cn em ph ad ts : String} {items : List Json} {oid : Int} :
      Reachable s → create_order s cn em ph ad items ts = .ok (s', oid) → Reachable s'

/-- A successful `create_order` appends exactly one order row, with status
`'received'`. -/
theorem create_order_ok_orders {s s' : DBState} {cn em ph ad ts : String}
    {items : List Json} {oid : Int}
    (h : create_order s cn em ph ad items ts = .ok (s', oid)) :
    s'.orders = s.orders ++
      [{ id := s.nextOrderId, customerName := cn, email := em, phone := ph, address := ad,
         status := "received", verificationCode := "", createdAt := ts }] := by
  rw [create_order] at h
  cases he : items.isEmpty with
  | true => rw [he] at h; cases h
  | false =>
    rw [he] at h
    simp only [Bind.bind, Bool.false_eq_true, if_false] at h
    cases hext : extractProductIds items with
    | error e => rw [hext, except_bind_error] at h; cases h
    | ok pids =>
      rw [hext] at h
      simp only [except_bind_ok] at h
      by_cases hc : (resolvedProductIds s pids).length ≠ pids.length
      · rw [if_pos hc] at h; cases h
      · rw [if_neg hc] at h
        cases hq : checkQuantities items with
        | error e => rw [hq, except_bind_error] at h; cases h
        | ok u =>
          cases u
          rw [hq] at h
          simp only [except_bind_ok] at h
          cases hins : insertOrderItems s.nextOrderId s.nextOrderItemId items with
          | error e => rw [hins, except_bind_error] at h; cases h
          | ok rows =>
            rw [hins] at h
            simp only [except_bind_ok] at h
            cases h
            rfl

/-- **C9**: in every database state reachable through `init_db` (including
its migrations), `seed_data`, `create_order` and the read operations,
every persisted order row has status `"received"`: `create_order` always
inserts status `'received'`, no operation mutates an existing order's
status, and the startup migration rewrites any legacy
`'pending_verification'` status to `'received'`. -/
theorem claim_C9 {s : DBState} (h : Reachable s) :
    ∀ o ∈ s.orders, o.status = "received" := by
  induction h with
  | empty => intro o ho; cases ho
  | legacyInit s h =>
    intro o ho
    simp only [init_db, apply_migrations] at ho
    rcases List.mem_map.mp ho with ⟨o0, ho0, rfl⟩
    rcases h o0 ho0 with h' | h'
    · rw [if_neg (by rw [h']; decide)]
      exact h'
    · rw [if_pos h']
  | initStep _ ih =>
    intro o ho
    simp only [init_db, apply_migrations] at ho
    rcases List.mem_map.mp ho with ⟨o0, ho0, rfl⟩
    rw [if_neg (by rw [ih o0 ho0]; decide)]
    exact ih o0 ho0
  | seedStep _ ih =>
    intro o ho
    rw [seed_data_orders] at ho
    exact ih o ho
  | createStep _ hco ih =>
    intro o ho
    rw [create_order_ok_orders hco] at ho
    rcases List.mem_append.mp ho with h' | h'
    · exact ih o h'
    · rcases List.mem_singleton.mp h' with rfl
      rfl

/-- A legacy database holding one order still in the retired
`pending_verification` status. -/
def sLegacy : DBState :=
  { categories := [], products := [],
    orders := [{ id := 1, customerName := "n", email := "e@x", phone := "123456",
                 address := "a", status := "pending_verification", verificationCode := "c",
                 createdAt := "t" }],
    orderItems := [],
    nextCategoryId := 1, nextProductId := 1, nextOrderId := 2, nextOrderItemId := 1 }

/-- Witness for C9: startup on the legacy database normalises its order to
`received`. -/
theorem claim_C9_witness :
    (init_db sLegacy).orders.all (fun o => o.status = "received") = true := by
  have h := claim_C9 (Reachable.legacyInit sLegacy (by decide))
  exact List.all_eq_true.mpr (fun o ho => decide_eq_true (h o ho))

end ZiadSupplies
